import Mathlib

/-!
# Authentication core of `smileys-open-project`

A shallow embedding of the Go sources

* `internal/models/user.go`               (records),
* `internal/database/migrations.go`       (schema: keys, uniqueness, column widths),
* `internal/repository/user_repository.go` (SQL statements as functions on a database state),
* `internal/service/auth_service.go`      (Register, Login, RequestPasswordReset,
                                           ResetPassword, generateToken, ValidateToken),
* `internal/handlers/auth_handler.go`     (the password-reset request handler),
* `pkg/validator/validator.go`            (ValidateEmail).

Stateful code is written in state-passing style: a repository or service method takes the
database state and returns its Go result together with the new database state.  A Go
`(T, error)` result is `Except String T`, the string being the text of `err.Error()`;
a Go `error` result is `Option String` (`none` is `nil`).

Everything the Go code obtains from outside the repository is an explicit argument:
the clock, the random source, bcrypt, the HMAC function and driver-level failures.
-/

namespace Auth

/-! ## Time -/

/-- Instants (`time.Time`) as nanoseconds since the Unix epoch; the database stores and
compares the instants it is given. -/
abbrev Time := Nat

/-- Nanoseconds in `time.Second`. -/
def Second : Nat := 1000000000

/-- Nanoseconds in `time.Hour`. -/
def Hour : Nat := 3600 * Second

/-- Method `Time.Unix()`: whole seconds since the epoch. -/
def Unix (t : Time) : Nat := t / Second

/-! ## `internal/models/user.go` -/

/-- Record `models.User`; it is also a row of table `users`. -/
structure User where
  ID : Int
  Email : String
  Username : String
  PasswordHash : String
  FirstName : Option String
  LastName : Option String
  Bio : Option String
  AvatarURL : Option String
  IsVerified : Bool
  IsActive : Bool
  CreatedAt : Time
  UpdatedAt : Time
deriving DecidableEq, Repr

/-- Record `models.RegisterRequest`. -/
structure RegisterRequest where
  Email : String
  Username : String
  Password : String
  FirstName : Option String
  LastName : Option String
  Interests : List Int
deriving DecidableEq, Repr

/-- Record `models.LoginRequest`. -/
structure LoginRequest where
  Email : String
  Password : String
deriving DecidableEq, Repr

/-- Record `models.PasswordResetRequest`. -/
structure PasswordResetRequest where
  Email : String
deriving DecidableEq, Repr

/-- Record `models.PasswordResetConfirm`. -/
structure PasswordResetConfirm where
  Token : String
  NewPassword : String
deriving DecidableEq, Repr

/-- Record `models.PasswordResetToken`; it is also a row of table `password_reset_tokens`. -/
structure PasswordResetToken where
  ID : Int
  UserID : Int
  Token : String
  ExpiresAt : Time
  Used : Bool
  CreatedAt : Time
deriving DecidableEq, Repr

/-! ## The database (`internal/database/migrations.go`) -/

/-- The contents of the tables created by `RunMigrations`, with the two `SERIAL` sequences. -/
structure DB where
  users : List User
  password_reset_tokens : List PasswordResetToken
  interest_groups : List Int
  user_interests : List (Int × Int)
  users_id_seq : Int
  password_reset_tokens_id_seq : Int
deriving DecidableEq, Repr

/-- The SQL statements issued by `UserRepository`. -/
inductive Stmt
  | insertUser
  | selectUserByEmail
  | selectUserByID
  | updatePassword
  | insertUserInterests
  | insertPasswordResetToken
  | selectPasswordResetToken
  | markTokenAsUsed
deriving DecidableEq, Repr

/-- Reasons for which the database server rejects a statement under the schema. -/
inductive SqlErr
  | uniqueViolation (constr : String)
  | foreignKeyViolation (constr : String)
  | valueTooLong (width : Nat)
deriving DecidableEq, Repr

/-- What one request obtains from its environment.

* `fault st` is a failure of statement `st` below the schema (connection lost, timeout ...)
  with the driver's text, `none` when the statement reaches the server and is executed;
* `errText` is the driver's text for a rejection by the server;
* `dbNow` is the server clock (`NOW()`, `CURRENT_TIMESTAMP`);
* `clock k` is the `k`-th reading of `time.Now()` made by the request;
* `salt` is the randomness drawn by `bcrypt.GenerateFromPassword`;
* `randRead` is the result of `rand.Read` on a 32-byte buffer: the bytes, or an error text. -/
structure Env where
  fault : Stmt → Option String
  errText : SqlErr → String
  dbNow : Time
  clock : Nat → Time
  salt : Nat
  randRead : Except String (Fin 32 → Fin 256)

/-- The schema of `migrations.go` as a predicate on database states: primary keys,
`UNIQUE` columns, foreign keys, and sequences ahead of the keys in use. -/
def DB.WF (db : DB) : Prop :=
  (db.users.map (fun u => u.ID)).Nodup ∧
  (db.users.map (fun u => u.Email)).Nodup ∧
  (db.users.map (fun u => u.Username)).Nodup ∧
  (∀ u ∈ db.users, u.ID < db.users_id_seq) ∧
  (db.password_reset_tokens.map (fun t => t.ID)).Nodup ∧
  (db.password_reset_tokens.map (fun t => t.Token)).Nodup ∧
  (∀ t ∈ db.password_reset_tokens, t.ID < db.password_reset_tokens_id_seq) ∧
  (∀ t ∈ db.password_reset_tokens, t.UserID ∈ db.users.map (fun u => u.ID)) ∧
  db.interest_groups.Nodup ∧
  db.user_interests.Nodup ∧
  (∀ p ∈ db.user_interests,
    p.1 ∈ db.users.map (fun u => u.ID) ∧ p.2 ∈ db.interest_groups)

instance (db : DB) : Decidable db.WF := by
  unfold DB.WF
  infer_instance

/-! ## `internal/repository/user_repository.go` -/

namespace UserRepository

/-- Width check of the `VARCHAR(n)` columns of table `users` for an inserted row. -/
def usersWidthErr (user : User) : Option SqlErr :=
  if user.Email.length > 255 then some (SqlErr.valueTooLong 255)
  else if user.Username.length > 100 then some (SqlErr.valueTooLong 100)
  else if user.PasswordHash.length > 255 then some (SqlErr.valueTooLong 255)
  else if (user.FirstName.getD "").length > 100 then some (SqlErr.valueTooLong 100)
  else if (user.LastName.getD "").length > 100 then some (SqlErr.valueTooLong 100)
  else none

/-- The uniqueness check of `INSERT INTO users` for the given row: `email UNIQUE`, then
`username UNIQUE`. -/
def usersUniqueErr (db : DB) (user : User) : Option SqlErr :=
  if db.users.any (fun u => u.Email == user.Email) then
    some (SqlErr.uniqueViolation "users_email_key")
  else if db.users.any (fun u => u.Username == user.Username) then
    some (SqlErr.uniqueViolation "users_username_key")
  else none

/-- Method `Create`: `INSERT INTO users (email, username, password_hash, first_name, last_name,
is_verified, is_active) VALUES (...) RETURNING id, created_at, updated_at`.
On success the returned record is the argument with `ID`, `CreatedAt`, `UpdatedAt` filled in
(the Go code writes them through the pointer).  `bio` and `avatar_url` are not in the column
list and are NULL.  A value too wide for its column is refused before a row is formed; a row
that is formed draws its `id` from the sequence, also when a `UNIQUE` index then refuses it. -/
def Create (db : DB) (env : Env) (user : User) : Except String User × DB :=
  match env.fault Stmt.insertUser with
  | some e => (.error ("failed to create user: " ++ e), db)
  | none =>
    match usersWidthErr user with
    | some e => (.error ("failed to create user: " ++ env.errText e), db)
    | none =>
      let db1 := { db with users_id_seq := db.users_id_seq + 1 }
      match usersUniqueErr db user with
      | some e => (.error ("failed to create user: " ++ env.errText e), db1)
      | none =>
        let row : User :=
          { user with
            ID := db.users_id_seq, Bio := none, AvatarURL := none,
            CreatedAt := env.dbNow, UpdatedAt := env.dbNow }
        let stored : User :=
          { user with ID := row.ID, CreatedAt := row.CreatedAt, UpdatedAt := row.UpdatedAt }
        (.ok stored, { db1 with users := db.users ++ [row] })

/-- Method `GetByEmail`: `SELECT ... FROM users WHERE email = $1`, first row. -/
def GetByEmail (db : DB) (env : Env) (email : String) : Except String User :=
  match env.fault Stmt.selectUserByEmail with
  | some e => .error ("failed to get user: " ++ e)
  | none =>
    match db.users.find? (fun u => u.Email == email) with
    | none => .error "user not found"
    | some u => .ok u

/-- Method `GetByID`: `SELECT ... FROM users WHERE id = $1`, first row. -/
def GetByID (db : DB) (env : Env) (id : Int) : Except String User :=
  match env.fault Stmt.selectUserByID with
  | some e => .error ("failed to get user: " ++ e)
  | none =>
    match db.users.find? (fun u => u.ID == id) with
    | none => .error "user not found"
    | some u => .ok u

/-- Method `UpdatePassword`:
`UPDATE users SET password_hash = $1, updated_at = $2 WHERE id = $3` with `$2 = time.Now()`.
A statement that matches no row is not an error. -/
def UpdatePassword (db : DB) (env : Env) (now : Time) (userID : Int) (passwordHash : String) :
    Option String × DB :=
  match env.fault Stmt.updatePassword with
  | some e => (some ("failed to update password: " ++ e), db)
  | none =>
    if passwordHash.length > 255 then
      (some ("failed to update password: " ++ env.errText (SqlErr.valueTooLong 255)), db)
    else
      (none,
        { db with
          users := db.users.map (fun u =>
            if u.ID == userID then { u with PasswordHash := passwordHash, UpdatedAt := now }
            else u) })

/-- Method `AddUserInterests`: one transaction inserting `(user_id, interest_id)` for every
listed interest with `ON CONFLICT DO NOTHING`; any failure rolls the whole transaction back. -/
def AddUserInterests (db : DB) (env : Env) (userID : Int) (interestIDs : List Int) :
    Option String × DB :=
  if interestIDs.length == 0 then (none, db)
  else
    match env.fault Stmt.insertUserInterests with
    | some e => (some ("failed to add interest: " ++ e), db)
    | none =>
      if !(db.users.any (fun u => u.ID == userID)) then
        (some ("failed to add interest: " ++
          env.errText (SqlErr.foreignKeyViolation "user_interests_user_id_fkey")), db)
      else if !(interestIDs.all (fun i => db.interest_groups.contains i)) then
        (some ("failed to add interest: " ++
          env.errText (SqlErr.foreignKeyViolation "user_interests_interest_id_fkey")), db)
      else
        (none,
          { db with
            user_interests := interestIDs.foldl
              (fun acc i => if acc.contains (userID, i) then acc else acc ++ [(userID, i)])
              db.user_interests })

/-- The constraint check of `INSERT INTO password_reset_tokens` for the given record: the
foreign key on `user_id`, then `token UNIQUE`. -/
def tokenConstraintErr (db : DB) (token : PasswordResetToken) : Option SqlErr :=
  if !(db.users.any (fun u => u.ID == token.UserID)) then
    some (SqlErr.foreignKeyViolation "password_reset_tokens_user_id_fkey")
  else if db.password_reset_tokens.any (fun t => t.Token == token.Token) then
    some (SqlErr.uniqueViolation "password_reset_tokens_token_key")
  else none

/-- Method `CreatePasswordResetToken`: `INSERT INTO password_reset_tokens (user_id, token,
expires_at) VALUES ($1, $2, $3) RETURNING id, created_at`.  Column `used` is not in the
column list and takes its default `FALSE`.  On success the returned record is the argument
with `ID` and `CreatedAt` filled in.  A token wider than `VARCHAR(255)` is refused before a
row is formed; a row that is formed draws its `id` from the sequence, also when a constraint
then refuses it. -/
def CreatePasswordResetToken (db : DB) (env : Env) (token : PasswordResetToken) :
    Except String PasswordResetToken × DB :=
  match env.fault Stmt.insertPasswordResetToken with
  | some e => (.error ("failed to create password reset token: " ++ e), db)
  | none =>
    if token.Token.length > 255 then
      (.error ("failed to create password reset token: " ++
        env.errText (SqlErr.valueTooLong 255)), db)
    else
      let db1 :=
        { db with password_reset_tokens_id_seq := db.password_reset_tokens_id_seq + 1 }
      match tokenConstraintErr db token with
      | some e => (.error ("failed to create password reset token: " ++ env.errText e), db1)
      | none =>
        let row : PasswordResetToken :=
          { ID := db.password_reset_tokens_id_seq, UserID := token.UserID,
            Token := token.Token, ExpiresAt := token.ExpiresAt, Used := false,
            CreatedAt := env.dbNow }
        (.ok { token with ID := row.ID, CreatedAt := row.CreatedAt },
          { db1 with password_reset_tokens := db.password_reset_tokens ++ [row] })

/-- Method `GetPasswordResetToken`: `SELECT ... FROM password_reset_tokens
WHERE token = $1 AND used = FALSE AND expires_at > NOW()`, first row. -/
def GetPasswordResetToken (db : DB) (env : Env) (token : String) :
    Except String PasswordResetToken :=
  match env.fault Stmt.selectPasswordResetToken with
  | some e => .error ("failed to get password reset token: " ++ e)
  | none =>
    match db.password_reset_tokens.find?
        (fun t => t.Token == token && !t.Used && decide (t.ExpiresAt > env.dbNow)) with
    | none => .error "invalid or expired token"
    | some t => .ok t

/-- Method `MarkTokenAsUsed`: `UPDATE password_reset_tokens SET used = TRUE WHERE id = $1`. -/
def MarkTokenAsUsed (db : DB) (env : Env) (tokenID : Int) : Option String × DB :=
  match env.fault Stmt.markTokenAsUsed with
  | some e => (some ("failed to mark token as used: " ++ e), db)
  | none =>
    (none,
      { db with
        password_reset_tokens := db.password_reset_tokens.map (fun t =>
          if t.ID == tokenID then { t with Used := true } else t) })

end UserRepository

/-! ## Libraries used by the service -/

/-- Package `golang.org/x/crypto/bcrypt` as used by the service.
`GenerateFromPassword pw salt` is the hash or the text of the error;
`CompareHashAndPassword hash pw` is `none` when the password verifies (Go `nil`)
and the text of the error otherwise. -/
structure Bcrypt where
  GenerateFromPassword : String → Nat → Except String String
  CompareHashAndPassword : String → String → Option String

/-- Function `hex.EncodeToString` of package `encoding/hex`. -/
def hexEncodeToString (src : List (Fin 256)) : String :=
  let hextable : List Char := "0123456789abcdef".toList
  String.mk (src.flatMap (fun b =>
    [hextable.getD (b.val / 16) '0', hextable.getD (b.val % 16) '0']))

namespace jwt

/-- A value of a claim in `jwt.MapClaims` (numbers are whole seconds or identifiers). -/
inductive ClaimValue
  | num (v : Int)
  | str (s : String)
deriving DecidableEq, Repr

/-- Type `jwt.MapClaims`, a map from claim names to values. -/
abbrev MapClaims := List (String × ClaimValue)

/-- The signing methods registered by `github.com/golang-jwt/jwt/v5`. -/
inductive SigningMethod
  | HS256 | HS384 | HS512
  | RS256 | RS384 | RS512
  | PS256 | PS384 | PS512
  | ES256 | ES384 | ES512
  | EdDSA
  | none
deriving DecidableEq, Repr

/-- Method `Alg()` of a signing method. -/
def SigningMethod.Alg : SigningMethod → String
  | .HS256 => "HS256" | .HS384 => "HS384" | .HS512 => "HS512"
  | .RS256 => "RS256" | .RS384 => "RS384" | .RS512 => "RS512"
  | .PS256 => "PS256" | .PS384 => "PS384" | .PS512 => "PS512"
  | .ES256 => "ES256" | .ES384 => "ES384" | .ES512 => "ES512"
  | .EdDSA => "EdDSA"
  | .none => "none"

/-- All registered signing methods. -/
def signingMethods : List SigningMethod :=
  [.HS256, .HS384, .HS512, .RS256, .RS384, .RS512, .PS256, .PS384, .PS512,
   .ES256, .ES384, .ES512, .EdDSA, .none]

/-- Function `jwt.GetSigningMethod`: the method registered under an `alg` header value. -/
def GetSigningMethod (alg : String) : Option SigningMethod :=
  signingMethods.find? (fun m => m.Alg == alg)

/-- Whether the method is a `*jwt.SigningMethodHMAC` (the type assertion of the key function). -/
def SigningMethod.isHMAC : SigningMethod → Bool
  | .HS256 | .HS384 | .HS512 => true
  | _ => false

/-- A token in compact serialisation, seen through its three segments:
the `alg` entry of the header, the claims, and the signature. -/
structure TokenString where
  alg : String
  claims : MapClaims
  signature : String
deriving DecidableEq, Repr

/-- Type `jwt.Token`. -/
structure Token where
  Method : SigningMethod
  HeaderAlg : String
  Claims : MapClaims
  Signature : String
  Valid : Bool
deriving DecidableEq, Repr

/-- The keyed hash of the HMAC methods: method, key and signing input (header `alg` and
claims) to signature. -/
abbrev Mac := SigningMethod → String → String × MapClaims → String

/-- Method `Verify` of a signing method for a key of type `[]byte`: an HMAC method recomputes
the keyed hash and compares; every other method refuses a `[]byte` key. -/
def SigningMethod.Verify (m : SigningMethod) (mac : Mac) (signingInput : String × MapClaims)
    (sig : String) (key : String) : Option String :=
  if m.isHMAC then
    if mac m key signingInput == sig then Option.none else some "signature is invalid"
  else if m == SigningMethod.none then some "none signature type is not allowed"
  else some "key is of invalid type"

/-- Reading a `NumericDate` claim of `MapClaims`: absent (or zero) is `none`; a value that is
not a number is an error. -/
def parseNumericDate (claims : MapClaims) (key : String) : Except String (Option Int) :=
  match claims.lookup key with
  | Option.none => .ok Option.none
  | some (ClaimValue.num v) => if v == 0 then .ok Option.none else .ok (some v)
  | some (ClaimValue.str _) => .error (key ++ " is invalid")

/-- The default validator of claims at instant `now`: `exp` (when present) must be after `now`,
`nbf` (when present) must not be after `now`; `iat` is not verified by default. -/
def Validate (now : Time) (claims : MapClaims) : Option String :=
  let expErr : List String :=
    match parseNumericDate claims "exp" with
    | .error e => [e]
    | .ok Option.none => []
    | .ok (some exp) => if (now : Int) < exp * (Second : Int) then [] else ["token is expired"]
  let nbfErr : List String :=
    match parseNumericDate claims "nbf" with
    | .error e => [e]
    | .ok Option.none => []
    | .ok (some nbf) =>
      if (now : Int) < nbf * (Second : Int) then ["token is not valid yet"] else []
  match expErr ++ nbfErr with
  | [] => Option.none
  | errs => some (String.intercalate ", " errs)

/-- Function `jwt.Parse` at instant `now`: look the method up, ask the key function for the
key, verify the signature, validate the claims; only then is the token `Valid`. -/
def Parse (mac : Mac) (now : Time) (tokenString : TokenString)
    (keyFunc : Token → Except String String) : Except String Token :=
  match GetSigningMethod tokenString.alg with
  | Option.none => .error "token is unverifiable: signing method (alg) is unavailable"
  | some m =>
    let token : Token :=
      { Method := m, HeaderAlg := tokenString.alg, Claims := tokenString.claims,
        Signature := tokenString.signature, Valid := false }
    match keyFunc token with
    | .error e => .error ("token is unverifiable: error while executing keyfunc: " ++ e)
    | .ok key =>
      match m.Verify mac (tokenString.alg, tokenString.claims) tokenString.signature key with
      | some e => .error ("token signature is invalid: " ++ e)
      | Option.none =>
        match Validate now tokenString.claims with
        | some e => .error ("token has invalid claims: " ++ e)
        | Option.none => .ok { token with Valid := true }

/-- The composition `jwt.NewWithClaims(method, claims).SignedString(key)` for a `[]byte` key. -/
def SignedString (mac : Mac) (m : SigningMethod) (claims : MapClaims) (key : String) :
    Except String TokenString :=
  if m.isHMAC then
    .ok { alg := m.Alg, claims := claims, signature := mac m key (m.Alg, claims) }
  else .error "key is of invalid type"

end jwt

/-- The libraries a request handler is linked against. -/
structure Libs where
  bcrypt : Bcrypt
  mac : jwt.Mac

/-! ## `internal/service/auth_service.go` -/

/-- Record `models.AuthResponse`; `Token` is the signed bearer token. -/
structure AuthResponse where
  Token : jwt.TokenString
  User : User
deriving DecidableEq, Repr

/-- Type `service.AuthService`; the repository it holds is the database state passed to
each method. -/
structure AuthService where
  jwtSecret : String
deriving DecidableEq, Repr

namespace AuthService

/-- Method `generateToken`.  `tExp` is the reading of `time.Now()` in the `exp` entry and
`tIat` the later reading in the `iat` entry. -/
def generateToken (s : AuthService) (lib : Libs) (tExp tIat : Time) (user : User) :
    Except String jwt.TokenString :=
  let claims : jwt.MapClaims :=
    [ ("user_id", jwt.ClaimValue.num user.ID),
      ("email", jwt.ClaimValue.str user.Email),
      ("username", jwt.ClaimValue.str user.Username),
      ("exp", jwt.ClaimValue.num (Unix (tExp + 24 * Hour))),
      ("iat", jwt.ClaimValue.num (Unix tIat)) ]
  match jwt.SignedString lib.mac jwt.SigningMethod.HS256 claims s.jwtSecret with
  | .error e => .error e
  | .ok tokenString => .ok tokenString

/-- The key function that `ValidateToken` hands to `jwt.Parse`. -/
def keyFunc (s : AuthService) (token : jwt.Token) : Except String String :=
  if !token.Method.isHMAC then .error ("unexpected signing method: " ++ token.HeaderAlg)
  else .ok s.jwtSecret

/-- Method `ValidateToken`, run at instant `now`. -/
def ValidateToken (s : AuthService) (lib : Libs) (now : Time) (tokenString : jwt.TokenString) :
    Except String jwt.MapClaims :=
  match jwt.Parse lib.mac now tokenString s.keyFunc with
  | .error e => .error e
  | .ok token => if token.Valid then .ok token.Claims else .error "invalid token"

/-- Method `Register`. -/
def Register (s : AuthService) (lib : Libs) (env : Env) (db : DB) (req : RegisterRequest) :
    Except String AuthResponse × DB :=
  let existingUser : Option User := (UserRepository.GetByEmail db env req.Email).toOption
  if existingUser.isSome then (.error "user with this email already exists", db)
  else
    match lib.bcrypt.GenerateFromPassword req.Password env.salt with
    | .error e => (.error ("failed to hash password: " ++ e), db)
    | .ok hashedPassword =>
      let user : User :=
        { ID := 0, Email := req.Email, Username := req.Username,
          PasswordHash := hashedPassword, FirstName := req.FirstName,
          LastName := req.LastName, Bio := none, AvatarURL := none,
          IsVerified := false, IsActive := true, CreatedAt := 0, UpdatedAt := 0 }
      match UserRepository.Create db env user with
      | (.error e, db1) => (.error ("failed to create user: " ++ e), db1)
      | (.ok user, db1) =>
        let db2 :=
          if req.Interests.length > 0 then
            (UserRepository.AddUserInterests db1 env user.ID req.Interests).2
          else db1
        match s.generateToken lib (env.clock 0) (env.clock 1) user with
        | .error e => (.error ("failed to generate token: " ++ e), db2)
        | .ok token => (.ok { Token := token, User := user }, db2)

/-- Method `Login`; it issues no statement that writes. -/
def Login (s : AuthService) (lib : Libs) (env : Env) (db : DB) (req : LoginRequest) :
    Except String AuthResponse :=
  match UserRepository.GetByEmail db env req.Email with
  | .error _ => .error "invalid email or password"
  | .ok user =>
    if !user.IsActive then .error "account is deactivated"
    else
      match lib.bcrypt.CompareHashAndPassword user.PasswordHash req.Password with
      | some _ => .error "invalid email or password"
      | none =>
        match s.generateToken lib (env.clock 0) (env.clock 1) user with
        | .error e => .error ("failed to generate token: " ++ e)
        | .ok token => .ok { Token := token, User := user }

/-- Method `RequestPasswordReset`. -/
def RequestPasswordReset (_s : AuthService) (env : Env) (db : DB) (email : String) :
    Except String String × DB :=
  match UserRepository.GetByEmail db env email with
  | .error _ => (.ok "", db)
  | .ok user =>
    match env.randRead with
    | .error e => (.error ("failed to generate token: " ++ e), db)
    | .ok tokenBytes =>
      let token := hexEncodeToString (List.ofFn tokenBytes)
      let resetToken : PasswordResetToken :=
        { ID := 0, UserID := user.ID, Token := token,
          ExpiresAt := env.clock 0 + 1 * Hour, Used := false, CreatedAt := 0 }
      match UserRepository.CreatePasswordResetToken db env resetToken with
      | (.error e, db1) => (.error ("failed to create reset token: " ++ e), db1)
      | (.ok _, db1) => (.ok token, db1)

/-- Method `ResetPassword`. -/
def ResetPassword (_s : AuthService) (lib : Libs) (env : Env) (db : DB)
    (req : PasswordResetConfirm) : Option String × DB :=
  match UserRepository.GetPasswordResetToken db env req.Token with
  | .error _ => (some "invalid or expired token", db)
  | .ok resetToken =>
    match lib.bcrypt.GenerateFromPassword req.NewPassword env.salt with
    | .error e => (some ("failed to hash password: " ++ e), db)
    | .ok hashedPassword =>
      match UserRepository.UpdatePassword db env (env.clock 0) resetToken.UserID
          hashedPassword with
      | (some e, db1) => (some ("failed to update password: " ++ e), db1)
      | (none, db1) =>
        match UserRepository.MarkTokenAsUsed db1 env resetToken.ID with
        | (some e, db2) => (some ("failed to mark token as used: " ++ e), db2)
        | (none, db2) => (none, db2)

end AuthService

/-! ## `pkg/validator/validator.go` -/

namespace validator

/-- Character class `[a-zA-Z]`. -/
def isLetter (c : Char) : Bool :=
  (decide ('a' ≤ c) && decide (c ≤ 'z')) || (decide ('A' ≤ c) && decide (c ≤ 'Z'))

/-- Character class `[a-zA-Z0-9]`. -/
def isAlnum (c : Char) : Bool :=
  isLetter c || (decide ('0' ≤ c) && decide (c ≤ '9'))

/-- Character class `[a-zA-Z0-9._%+\-]`. -/
def isLocalChar (c : Char) : Bool :=
  isAlnum c || c == '.' || c == '_' || c == '%' || c == '+' || c == '-'

/-- Character class `[a-zA-Z0-9.\-]`. -/
def isDomainChar (c : Char) : Bool :=
  isAlnum c || c == '.' || c == '-'

/-- Matcher for `emailRegex`, the anchored pattern
`^[a-zA-Z0-9._%+\-]+@[a-zA-Z0-9.\-]+\.[a-zA-Z]{2,}$`.
Neither class contains `@`, so the text before the first `@` is the local part; the last
class contains no dot, so the text after the last dot is the final label. -/
def emailRegexMatchString (s : String) : Bool :=
  let cs := s.toList
  let loc := cs.takeWhile (fun c => c != '@')
  match cs.dropWhile (fun c => c != '@') with
  | [] => false
  | _ :: rest =>
    let rev := rest.reverse
    let tld := rev.takeWhile (fun c => c != '.')
    match rev.dropWhile (fun c => c != '.') with
    | [] => false
    | _ :: dom =>
      !loc.isEmpty && loc.all isLocalChar &&
      !dom.isEmpty && dom.all isDomainChar &&
      decide (2 ≤ tld.length) && tld.all isLetter

/-- Function `ValidateEmail`. -/
def ValidateEmail (email : String) : Option String :=
  if email == "" then some "email is required"
  else if !emailRegexMatchString email then some "invalid email format"
  else none

/-- Function `unicode.IsSpace`: the Unicode White Space property. -/
def unicodeIsSpace (c : Char) : Bool :=
  let r := c.toNat
  (decide (0x09 ≤ r) && decide (r ≤ 0x0d)) || r == 0x20 || r == 0x85 || r == 0xa0 ||
  r == 0x1680 || (decide (0x2000 ≤ r) && decide (r ≤ 0x200a)) || r == 0x2028 ||
  r == 0x2029 || r == 0x202f || r == 0x205f || r == 0x3000

/-- Function `strings.TrimSpace`: the string without its leading and trailing white space. -/
def stringsTrimSpace (s : String) : String :=
  String.mk ((s.toList.dropWhile unicodeIsSpace).reverse.dropWhile unicodeIsSpace).reverse

/-- Function `ValidatePassword`; Go's `len` counts the bytes of the UTF-8 encoding. -/
def ValidatePassword (password : String) : Option String :=
  if password == "" then some "password is required"
  else if password.utf8ByteSize < 8 then some "password must be at least 8 characters long"
  else none

/-- Function `ValidateRequired`. -/
def ValidateRequired (field value : String) : Option String :=
  if stringsTrimSpace value == "" then some (field ++ " is required")
  else none

end validator

/-! ## `internal/handlers/auth_handler.go` -/

/-- A call of package `pkg/response` on the response writer: `response.Error(w, status, msg)`
or `response.Success(w, data)` with a string map as data. -/
inductive Reply
  | Error (status : Nat) (message : String)
  | Success (data : List (String × String))
deriving DecidableEq, Repr

/-- What a handler leaves behind: its reply, the goroutines it started to send mail
(recipient and token), and the database state. -/
structure Handled where
  reply : Reply
  mails : List (String × String)
  db : DB
deriving DecidableEq, Repr

namespace AuthHandler

/-- Status `http.StatusBadRequest`. -/
def StatusBadRequest : Nat := 400

/-- Status `http.StatusInternalServerError`. -/
def StatusInternalServerError : Nat := 500

/-- Method `AuthHandler.RequestPasswordReset`.  `body` is the result of decoding the request
body into a `PasswordResetRequest` (`none` when decoding fails). -/
def RequestPasswordReset (s : AuthService) (env : Env) (db : DB)
    (body : Option PasswordResetRequest) : Handled :=
  match body with
  | none => { reply := Reply.Error StatusBadRequest "invalid request body", mails := [], db := db }
  | some req =>
    match validator.ValidateEmail req.Email with
    | some e => { reply := Reply.Error StatusBadRequest e, mails := [], db := db }
    | none =>
      match s.RequestPasswordReset env db req.Email with
      | (.error _, db1) =>
        { reply := Reply.Error StatusInternalServerError
            "failed to process password reset request",
          mails := [], db := db1 }
      | (.ok token, db1) =>
        { reply := Reply.Success
            [("message", "If the email exists, a password reset link has been sent")],
          mails := if token != "" then [(req.Email, token)] else [],
          db := db1 }

end AuthHandler

/-! ## Auxiliary definitions for the statements below -/

/-- The claims `generateToken` puts into a token, as a function of the two clock readings. -/
def issuedClaims (tExp tIat : Time) (user : User) : jwt.MapClaims :=
  [ ("user_id", jwt.ClaimValue.num user.ID),
    ("email", jwt.ClaimValue.str user.Email),
    ("username", jwt.ClaimValue.str user.Username),
    ("exp", jwt.ClaimValue.num (Unix (tExp + 24 * Hour))),
    ("iat", jwt.ClaimValue.num (Unix tIat)) ]

/-- The sixteen digits of `hex.EncodeToString`. -/
def hexDigits : List Char := "0123456789abcdef".toList

/-- The body of the reply the password-reset request handler sends on success. -/
def genericResetReply : Reply :=
  Reply.Success [("message", "If the email exists, a password reset link has been sent")]

/-! ## A concrete store and environment, used to instantiate the statements -/

namespace Sample

/-- A stand-in for bcrypt with the interface the service uses: passwords longer than 72 bytes
are refused, and a hash verifies exactly the password it was made from. -/
def bcrypt : Bcrypt where
  GenerateFromPassword := fun pw salt =>
    if pw.utf8ByteSize > 72 then .error "bcrypt: password length exceeds 72 bytes"
    else .ok ("$2a$10$" ++ String.mk (List.replicate salt 's') ++ "$" ++ pw)
  CompareHashAndPassword := fun hash pw =>
    if (hash.toList.reverse.takeWhile (fun c => c != '$')).reverse == pw.toList then none
    else some "crypto/bcrypt: hashedPassword is not the hash of the given password"

/-- A stand-in for the keyed hash. -/
def mac : jwt.Mac := fun m key input =>
  m.Alg ++ ":" ++ key ++ ":" ++ input.1 ++ ":" ++
    String.mk (List.replicate input.2.length 'c')

/-- The two stand-ins together. -/
def libs : Libs := { bcrypt := bcrypt, mac := mac }

/-- A service with a fixed signing secret. -/
def service : AuthService := { jwtSecret := "secret" }

/-- An active user. -/
def alice : User :=
  { ID := 1, Email := "a@x.com", Username := "alice", PasswordHash := "$2a$10$ss$password1",
    FirstName := none, LastName := none, Bio := none, AvatarURL := none,
    IsVerified := false, IsActive := true, CreatedAt := 0, UpdatedAt := 0 }

/-- A deactivated user. -/
def bob : User :=
  { ID := 2, Email := "b@x.com", Username := "bob", PasswordHash := "$2a$10$ss$password2",
    FirstName := none, LastName := none, Bio := none, AvatarURL := none,
    IsVerified := false, IsActive := false, CreatedAt := 0, UpdatedAt := 0 }

/-- An unused reset token of alice that expires at instant 5000. -/
def freshToken : PasswordResetToken :=
  { ID := 1, UserID := 1, Token := "aa11", ExpiresAt := 5000, Used := false, CreatedAt := 10 }

/-- A reset token of alice that has been consumed. -/
def usedToken : PasswordResetToken :=
  { ID := 2, UserID := 1, Token := "bb22", ExpiresAt := 5000, Used := true, CreatedAt := 10 }

/-- An unused reset token of bob that expired at instant 500. -/
def expiredToken : PasswordResetToken :=
  { ID := 3, UserID := 2, Token := "cc33", ExpiresAt := 500, Used := false, CreatedAt := 10 }

/-- A store with two users and three reset tokens. -/
def db : DB :=
  { users := [alice, bob],
    password_reset_tokens := [freshToken, usedToken, expiredToken],
    interest_groups := [1, 2, 3, 4],
    user_interests := [],
    users_id_seq := 3,
    password_reset_tokens_id_seq := 4 }

/-- An environment at instant 1000 in which every statement reaches the server. -/
def env : Env :=
  { fault := fun _ => none,
    errText := fun _ => "rejected by the server",
    dbNow := 1000,
    clock := fun k => 1000 + k,
    salt := 2,
    randRead := .ok (fun i => ⟨171 + i.val, by omega⟩) }

/-- The same environment, except that the insert of a reset token fails in the driver. -/
def envInsertTokenFails : Env :=
  { env with
    fault := fun st =>
      if st = Stmt.insertPasswordResetToken then some "connection refused" else none }

/-- A registration whose email is new and whose username is alice's. -/
def registerAliceAgain : RegisterRequest :=
  { Email := "c@x.com", Username := "alice", Password := "password3",
    FirstName := none, LastName := none, Interests := [] }

/-- A registration with a new email and a new username. -/
def registerCarol : RegisterRequest :=
  { Email := "c@x.com", Username := "carol", Password := "password3",
    FirstName := none, LastName := none, Interests := [1, 2] }

/-- The environment in which marking a token as used fails in the driver. -/
def envMarkUsedFails : Env :=
  { env with
    fault := fun st =>
      if st = Stmt.markTokenAsUsed then some "connection reset" else none }

/-- The environment in which the lookup of a user by email fails in the driver. -/
def envLookupFails : Env :=
  { env with
    fault := fun st =>
      if st = Stmt.selectUserByEmail then some "connection reset" else none }

end Sample

/-! ## Lemmas on the repository -/

/-- Under `email UNIQUE`, the query by a stored user's email selects that user. -/
theorem find_email_of_mem {l : List User} {u : User}
    (hnd : (l.map (fun x => x.Email)).Nodup) (hu : u ∈ l) :
    l.find? (fun x => x.Email == u.Email) = some u := by
  induction l with
  | nil => cases hu
  | cons a t ih =>
    rw [List.map_cons, List.nodup_cons] at hnd
    rcases List.mem_cons.mp hu with rfl | hmem
    · simp
    · have hne : a.Email ≠ u.Email := by
        intro h
        exact hnd.1 (h ▸ List.mem_map_of_mem (fun x => x.Email) hmem)
      rw [List.find?_cons_of_neg _ (by simpa using hne)]
      exact ih hnd.2 hmem

/-- The query by an email that no stored user has selects nothing. -/
theorem find_email_none {l : List User} {email : String}
    (h : ∀ u ∈ l, u.Email ≠ email) :
    l.find? (fun x => x.Email == email) = none := by
  rw [List.find?_eq_none]
  intro x hx
  simpa using h x hx

/-- In a store that satisfies the schema, and without a driver failure, `GetByEmail` with a
stored user's email returns that user. -/
theorem getByEmail_of_mem {db : DB} {env : Env} {u : User} (hwf : db.WF) (hu : u ∈ db.users)
    (hnf : env.fault Stmt.selectUserByEmail = none) :
    UserRepository.GetByEmail db env u.Email = .ok u := by
  unfold UserRepository.GetByEmail
  rw [hnf]
  simp only
  rw [find_email_of_mem hwf.2.1 hu]

/-- For an email that no stored user has, `GetByEmail` returns an error. -/
theorem getByEmail_absent {db : DB} (env : Env) {email : String}
    (h : ∀ u ∈ db.users, u.Email ≠ email) :
    ∃ e, UserRepository.GetByEmail db env email = .error e := by
  unfold UserRepository.GetByEmail
  cases env.fault Stmt.selectUserByEmail with
  | some e => exact ⟨_, rfl⟩
  | none =>
    simp only
    rw [find_email_none h]
    exact ⟨_, rfl⟩

/-- Without a driver failure, `GetByEmail` with an email that some stored user has returns
a user. -/
theorem getByEmail_present {db : DB} {env : Env} {email : String}
    (hex : ∃ u ∈ db.users, u.Email = email)
    (hnf : env.fault Stmt.selectUserByEmail = none) :
    ∃ v, UserRepository.GetByEmail db env email = .ok v := by
  unfold UserRepository.GetByEmail
  rw [hnf]
  cases hq : db.users.find? (fun x => x.Email == email) with
  | some v => exact ⟨v, rfl⟩
  | none =>
    obtain ⟨u, hu, hmail⟩ := hex
    rw [List.find?_eq_none] at hq
    exact absurd (by simpa using hmail) (hq u hu)

/-- When every stored record with the given token string is used or expired,
`GetPasswordResetToken` returns an error. -/
theorem getResetToken_none {db : DB} {env : Env} {token : String}
    (h : ∀ t ∈ db.password_reset_tokens,
      t.Token = token → t.Used = true ∨ t.ExpiresAt ≤ env.dbNow) :
    ∃ e, UserRepository.GetPasswordResetToken db env token = .error e := by
  unfold UserRepository.GetPasswordResetToken
  cases env.fault Stmt.selectPasswordResetToken with
  | some e => exact ⟨_, rfl⟩
  | none =>
    have hnone : db.password_reset_tokens.find?
        (fun t => t.Token == token && !t.Used && decide (t.ExpiresAt > env.dbNow)) = none := by
      rw [List.find?_eq_none]
      intro x hx hp
      simp only [Bool.and_eq_true, beq_iff_eq, Bool.not_eq_true', decide_eq_true_eq] at hp
      rcases h x hx hp.1.1 with hused | hexp
      · rw [hused] at hp
        exact Bool.noConfusion hp.1.2
      · exact absurd hp.2 (Nat.not_lt.mpr hexp)
    simp only [hnone]
    exact ⟨_, rfl⟩

/-- Under `token UNIQUE`, the query for a stored, unused, unexpired token selects its record. -/
theorem find_token_of_mem {l : List PasswordResetToken} {t : PasswordResetToken} (now : Time)
    (hnd : (l.map (fun x => x.Token)).Nodup) (ht : t ∈ l)
    (hunused : t.Used = false) (hfresh : now < t.ExpiresAt) :
    l.find? (fun x => x.Token == t.Token && !x.Used && decide (x.ExpiresAt > now)) = some t := by
  induction l with
  | nil => cases ht
  | cons a r ih =>
    rw [List.map_cons, List.nodup_cons] at hnd
    rcases List.mem_cons.mp ht with rfl | hmem
    · simp [hunused, hfresh]
    · have hne : a.Token ≠ t.Token := by
        intro h
        exact hnd.1 (h ▸ List.mem_map_of_mem (fun x => x.Token) hmem)
      rw [List.find?_cons_of_neg _ (by simp [hne])]
      exact ih hnd.2 hmem

/-- The service rejects a reset whose token string has no unused, unexpired record, and
leaves the store as it was. -/
theorem resetPassword_rejects (s : AuthService) (lib : Libs) (env : Env) (db : DB)
    (req : PasswordResetConfirm)
    (h : ∀ t ∈ db.password_reset_tokens,
      t.Token = req.Token → t.Used = true ∨ t.ExpiresAt ≤ env.dbNow) :
    s.ResetPassword lib env db req = (some "invalid or expired token", db) := by
  obtain ⟨e, he⟩ := getResetToken_none h
  simp [AuthService.ResetPassword, he]

/-! ## The schema is an invariant of the service -/

/-- Rewriting rows without touching a key column keeps the column. -/
theorem map_key_of_update {α β : Type} (l : List α) (g : α → α) (k : α → β)
    (h : ∀ x, k (g x) = k x) : (l.map g).map k = l.map k := by
  rw [List.map_map]
  exact List.map_congr_left (fun x _ => h x)

/-- The password update keeps the schema. -/
theorem updatePassword_wf (db : DB) (env : Env) (now : Time) (userID : Int) (hash : String)
    (hwf : db.WF) : (UserRepository.UpdatePassword db env now userID hash).2.WF := by
  unfold UserRepository.UpdatePassword
  split
  · exact hwf
  · split
    · exact hwf
    · obtain ⟨h1, h2, h3, h4, h5, h6, h7, h8, h9, h10, h11⟩ := hwf
      have hid : (db.users.map (fun u =>
            if u.ID == userID then { u with PasswordHash := hash, UpdatedAt := now }
            else u)).map (fun u => u.ID) = db.users.map (fun u => u.ID) :=
        map_key_of_update _ _ _ (fun x => by split <;> rfl)
      have hem : (db.users.map (fun u =>
            if u.ID == userID then { u with PasswordHash := hash, UpdatedAt := now }
            else u)).map (fun u => u.Email) = db.users.map (fun u => u.Email) :=
        map_key_of_update _ _ _ (fun x => by split <;> rfl)
      have hun : (db.users.map (fun u =>
            if u.ID == userID then { u with PasswordHash := hash, UpdatedAt := now }
            else u)).map (fun u => u.Username) = db.users.map (fun u => u.Username) :=
        map_key_of_update _ _ _ (fun x => by split <;> rfl)
      refine ⟨by rw [hid]; exact h1, by rw [hem]; exact h2, by rw [hun]; exact h3, ?_,
        h5, h6, h7, by rw [hid]; exact h8, h9, h10, by rw [hid]; exact h11⟩
      intro u hu
      simp only [List.mem_map] at hu
      obtain ⟨x, hx, rfl⟩ := hu
      have := h4 x hx
      split <;> exact this

/-- Marking a token as used keeps the schema. -/
theorem markTokenAsUsed_wf (db : DB) (env : Env) (tokenID : Int)
    (hwf : db.WF) : (UserRepository.MarkTokenAsUsed db env tokenID).2.WF := by
  unfold UserRepository.MarkTokenAsUsed
  split
  · exact hwf
  · obtain ⟨h1, h2, h3, h4, h5, h6, h7, h8, h9, h10, h11⟩ := hwf
    have hid : (db.password_reset_tokens.map (fun t =>
          if t.ID == tokenID then { t with Used := true } else t)).map (fun t => t.ID) =
        db.password_reset_tokens.map (fun t => t.ID) :=
      map_key_of_update _ _ _ (fun x => by split <;> rfl)
    have htk : (db.password_reset_tokens.map (fun t =>
          if t.ID == tokenID then { t with Used := true } else t)).map (fun t => t.Token) =
        db.password_reset_tokens.map (fun t => t.Token) :=
      map_key_of_update _ _ _ (fun x => by split <;> rfl)
    refine ⟨h1, h2, h3, h4, by rw [hid]; exact h5, by rw [htk]; exact h6, ?_, ?_,
      h9, h10, h11⟩
    · intro t ht
      simp only [List.mem_map] at ht
      obtain ⟨x, hx, rfl⟩ := ht
      have := h7 x hx
      split <;> exact this
    · intro t ht
      simp only [List.mem_map] at ht
      obtain ⟨x, hx, rfl⟩ := ht
      have := h8 x hx
      split <;> exact this

/-- Advancing the users sequence keeps the schema. -/
theorem wf_bump_users_seq (db : DB) (hwf : db.WF) :
    DB.WF { db with users_id_seq := db.users_id_seq + 1 } := by
  obtain ⟨h1, h2, h3, h4, h5, h6, h7, h8, h9, h10, h11⟩ := hwf
  exact ⟨h1, h2, h3, fun u hu => Int.lt_add_one_iff.mpr (Int.le_of_lt (h4 u hu)),
    h5, h6, h7, h8, h9, h10, h11⟩

/-- Advancing the token sequence keeps the schema. -/
theorem wf_bump_tokens_seq (db : DB) (hwf : db.WF) :
    DB.WF { db with password_reset_tokens_id_seq := db.password_reset_tokens_id_seq + 1 } := by
  obtain ⟨h1, h2, h3, h4, h5, h6, h7, h8, h9, h10, h11⟩ := hwf
  exact ⟨h1, h2, h3, h4, h5, h6,
    fun t ht => Int.lt_add_one_iff.mpr (Int.le_of_lt (h7 t ht)), h8, h9, h10, h11⟩

/-- Appending a value that does not occur keeps a list free of duplicates. -/
theorem nodup_append_singleton {β : Type} {l : List β} {b : β} (hnd : l.Nodup) (hb : b ∉ l) :
    (l ++ [b]).Nodup := by
  rw [List.nodup_append]
  refine ⟨hnd, List.nodup_singleton b, ?_⟩
  intro x hx hx2
  rw [List.mem_singleton] at hx2
  exact hb (hx2 ▸ hx)

/-- The insert of a user keeps the schema. -/
theorem create_wf (db : DB) (env : Env) (user : User) (hwf : db.WF) :
    (UserRepository.Create db env user).2.WF := by
  unfold UserRepository.Create
  split
  · exact hwf
  · split
    · exact hwf
    · split
      · exact wf_bump_users_seq db hwf
      · rename_i huniq
        obtain ⟨h1, h2, h3, h4, h5, h6, h7, h8, h9, h10, h11⟩ := hwf
        unfold UserRepository.usersUniqueErr at huniq
        have hmail : ¬ (db.users.any (fun u => u.Email == user.Email) = true) := by
          intro h
          simp [h] at huniq
        have hname : ¬ (db.users.any (fun u => u.Username == user.Username) = true) := by
          intro h
          simp only [h, if_true] at huniq
          split at huniq <;> cases huniq
        have hmail2 : user.Email ∉ db.users.map (fun u => u.Email) := by
          intro hm
          obtain ⟨x, hx, hxe⟩ := List.mem_map.mp hm
          exact hmail (List.any_eq_true.mpr ⟨x, hx, by simpa using hxe⟩)
        have hname2 : user.Username ∉ db.users.map (fun u => u.Username) := by
          intro hm
          obtain ⟨x, hx, hxe⟩ := List.mem_map.mp hm
          exact hname (List.any_eq_true.mpr ⟨x, hx, by simpa using hxe⟩)
        have hid2 : db.users_id_seq ∉ db.users.map (fun u => u.ID) := by
          intro hm
          obtain ⟨x, hx, hxe⟩ := List.mem_map.mp hm
          have := h4 x hx
          omega
        refine ⟨?_, ?_, ?_, ?_, h5, h6, h7, ?_, h9, h10, ?_⟩
        · simp only [List.map_append, List.map_cons, List.map_nil]
          exact nodup_append_singleton h1 hid2
        · simp only [List.map_append, List.map_cons, List.map_nil]
          exact nodup_append_singleton h2 hmail2
        · simp only [List.map_append, List.map_cons, List.map_nil]
          exact nodup_append_singleton h3 hname2
        · intro u hu
          simp only [List.mem_append, List.mem_singleton] at hu
          rcases hu with hu | rfl
          · exact Int.lt_add_one_iff.mpr (Int.le_of_lt (h4 u hu))
          · exact Int.lt_add_one_iff.mpr (Int.le_refl _)
        · intro t ht
          simp only [List.map_append, List.mem_append]
          exact Or.inl (h8 t ht)
        · intro p hp
          simp only [List.map_append, List.mem_append]
          exact ⟨Or.inl (h11 p hp).1, (h11 p hp).2⟩

/-- The insert of a reset token keeps the schema. -/
theorem createPasswordResetToken_wf (db : DB) (env : Env) (token : PasswordResetToken)
    (hwf : db.WF) : (UserRepository.CreatePasswordResetToken db env token).2.WF := by
  unfold UserRepository.CreatePasswordResetToken
  split
  · exact hwf
  · split
    · exact hwf
    · split
      · exact wf_bump_tokens_seq db hwf
      · rename_i hc
        obtain ⟨h1, h2, h3, h4, h5, h6, h7, h8, h9, h10, h11⟩ := hwf
        unfold UserRepository.tokenConstraintErr at hc
        have hfk : db.users.any (fun u => u.ID == token.UserID) = true := by
          by_contra h
          simp [h] at hc
        have htok : ¬ (db.password_reset_tokens.any (fun t => t.Token == token.Token) = true) := by
          intro h
          simp [h, hfk] at hc
        have htok2 : token.Token ∉ db.password_reset_tokens.map (fun t => t.Token) := by
          intro hm
          obtain ⟨x, hx, hxe⟩ := List.mem_map.mp hm
          exact htok (List.any_eq_true.mpr ⟨x, hx, by simpa using hxe⟩)
        have hid2 : db.password_reset_tokens_id_seq ∉
            db.password_reset_tokens.map (fun t => t.ID) := by
          intro hm
          obtain ⟨x, hx, hxe⟩ := List.mem_map.mp hm
          have := h7 x hx
          omega
        have huser : token.UserID ∈ db.users.map (fun u => u.ID) := by
          obtain ⟨x, hx, hxe⟩ := List.any_eq_true.mp hfk
          exact List.mem_map.mpr ⟨x, hx, by simpa using hxe⟩
        refine ⟨h1, h2, h3, h4, ?_, ?_, ?_, ?_, h9, h10, h11⟩
        · simp only [List.map_append, List.map_cons, List.map_nil]
          exact nodup_append_singleton h5 hid2
        · simp only [List.map_append, List.map_cons, List.map_nil]
          exact nodup_append_singleton h6 htok2
        · intro t ht
          simp only [List.mem_append, List.mem_singleton] at ht
          rcases ht with ht | rfl
          · exact Int.lt_add_one_iff.mpr (Int.le_of_lt (h7 t ht))
          · exact Int.lt_add_one_iff.mpr (Int.le_refl _)
        · intro t ht
          simp only [List.mem_append, List.mem_singleton] at ht
          rcases ht with ht | rfl
          · exact h8 t ht
          · exact huser

/-- Inserting pairs with `ON CONFLICT DO NOTHING` keeps the pairs distinct and keeps any
property that the old pairs and the inserted pairs have. -/
theorem foldl_insert_pairs (P : Int × Int → Prop) (userID : Int) (ids : List Int)
    (acc : List (Int × Int)) (hnd : acc.Nodup) (hacc : ∀ p ∈ acc, P p)
    (hids : ∀ i ∈ ids, P (userID, i)) :
    (ids.foldl (fun acc i => if acc.contains (userID, i) then acc else acc ++ [(userID, i)])
      acc).Nodup ∧
    ∀ p ∈ ids.foldl
      (fun acc i => if acc.contains (userID, i) then acc else acc ++ [(userID, i)]) acc,
      P p := by
  induction ids generalizing acc with
  | nil => exact ⟨hnd, hacc⟩
  | cons i rest ih =>
    rw [List.foldl_cons]
    have hrest : ∀ j ∈ rest, P (userID, j) := fun j hj => hids j (List.mem_cons_of_mem _ hj)
    by_cases hc : acc.contains (userID, i) = true
    · rw [if_pos hc]
      exact ih acc hnd hacc hrest
    · rw [if_neg hc]
      apply ih _ (nodup_append_singleton hnd (by simpa using hc)) _ hrest
      intro p hp
      simp only [List.mem_append, List.mem_singleton] at hp
      rcases hp with hp | rfl
      · exact hacc p hp
      · exact hids i (List.mem_cons_self _ _)

/-- Attaching interests keeps the schema. -/
theorem addUserInterests_wf (db : DB) (env : Env) (userID : Int) (interestIDs : List Int)
    (hwf : db.WF) : (UserRepository.AddUserInterests db env userID interestIDs).2.WF := by
  unfold UserRepository.AddUserInterests
  split
  · exact hwf
  · split
    · exact hwf
    · split
      · exact hwf
      · rename_i huser
        split
        · exact hwf
        · rename_i hgroups
          obtain ⟨h1, h2, h3, h4, h5, h6, h7, h8, h9, h10, h11⟩ := hwf
          have hu : userID ∈ db.users.map (fun u => u.ID) := by
            simp only [Bool.not_eq_true', Bool.not_eq_false'] at huser
            simp only [Bool.not_eq_true, Bool.not_eq_false] at huser
            obtain ⟨x, hx, hxe⟩ := List.any_eq_true.mp huser
            exact List.mem_map.mpr ⟨x, hx, by simpa using hxe⟩
          have hg : ∀ i ∈ interestIDs, i ∈ db.interest_groups := by
            simp only [Bool.not_eq_true', Bool.not_eq_false'] at hgroups
            simp only [Bool.not_eq_true, Bool.not_eq_false] at hgroups
            intro i hi
            have := List.all_eq_true.mp hgroups i hi
            simpa using this
          have hf := foldl_insert_pairs
            (fun p => p.1 ∈ db.users.map (fun u => u.ID) ∧ p.2 ∈ db.interest_groups)
            userID interestIDs db.user_interests h10 h11 (fun i hi => ⟨hu, hg i hi⟩)
          exact ⟨h1, h2, h3, h4, h5, h6, h7, h8, h9, hf.1, hf.2⟩

/-- Reading the schema off the second component of a result. -/
theorem wf_of_snd {α : Type} {r : α × DB} {a : α} {db1 : DB} (h : r = (a, db1))
    (hr : r.2.WF) : db1.WF := by
  subst h
  exact hr

/-- Registration keeps the schema. -/
theorem register_wf (s : AuthService) (lib : Libs) (env : Env) (db : DB) (req : RegisterRequest)
    (hwf : db.WF) : (s.Register lib env db req).2.WF := by
  unfold AuthService.Register
  simp only
  split
  · exact hwf
  · split
    · exact hwf
    · split
      · rename_i hc
        exact wf_of_snd hc (create_wf db env _ hwf)
      · rename_i user db1 hc
        have h1 : db1.WF := wf_of_snd hc (create_wf db env _ hwf)
        have h2 : DB.WF (if req.Interests.length > 0 then
            (UserRepository.AddUserInterests db1 env user.ID req.Interests).2 else db1) := by
          split
          · exact addUserInterests_wf db1 env _ _ h1
          · exact h1
        split <;> exact h2

/-- Requesting a password reset keeps the schema. -/
theorem requestPasswordReset_wf (s : AuthService) (env : Env) (db : DB) (email : String)
    (hwf : db.WF) : (s.RequestPasswordReset env db email).2.WF := by
  unfold AuthService.RequestPasswordReset
  split
  · exact hwf
  · split
    · exact hwf
    · simp only
      split
      · rename_i hc
        exact wf_of_snd hc (createPasswordResetToken_wf db env _ hwf)
      · rename_i hc
        exact wf_of_snd hc (createPasswordResetToken_wf db env _ hwf)

/-- Resetting a password keeps the schema. -/
theorem resetPassword_wf (s : AuthService) (lib : Libs) (env : Env) (db : DB)
    (req : PasswordResetConfirm) (hwf : db.WF) : (s.ResetPassword lib env db req).2.WF := by
  unfold AuthService.ResetPassword
  split
  · exact hwf
  · split
    · exact hwf
    · split
      · rename_i hc
        exact wf_of_snd hc (updatePassword_wf db env _ _ _ hwf)
      · rename_i db1 hc
        have h1 : db1.WF := wf_of_snd hc (updatePassword_wf db env _ _ _ hwf)
        split
        · rename_i hm
          exact wf_of_snd hm (markTokenAsUsed_wf db1 env _ h1)
        · rename_i hm
          exact wf_of_snd hm (markTokenAsUsed_wf db1 env _ h1)

/-! ## Login failures -/

/-- C1: `Login` with an email that no stored user has, and `Login` with the email of an active
stored user and a password that does not verify against that user's hash, return one and the
same error, with the text "invalid email or password". -/
theorem C1_login_failures_indistinguishable (s : AuthService) (lib : Libs) (envA envB : Env)
    (dbA dbB : DB) (reqA reqB : LoginRequest) (u : User)
    (hA : ∀ x ∈ dbA.users, x.Email ≠ reqA.Email)
    (hwf : dbB.WF) (hu : u ∈ dbB.users) (hmail : reqB.Email = u.Email)
    (hact : u.IsActive = true)
    (hpw : lib.bcrypt.CompareHashAndPassword u.PasswordHash reqB.Password ≠ none) :
    s.Login lib envA dbA reqA = .error "invalid email or password" ∧
    s.Login lib envB dbB reqB = .error "invalid email or password" ∧
    s.Login lib envA dbA reqA = s.Login lib envB dbB reqB := by
  have h1 : s.Login lib envA dbA reqA = .error "invalid email or password" := by
    obtain ⟨e, he⟩ := getByEmail_absent envA hA
    simp [AuthService.Login, he]
  have h2 : s.Login lib envB dbB reqB = .error "invalid email or password" := by
    unfold AuthService.Login
    cases hf : envB.fault Stmt.selectUserByEmail with
    | some e => simp [UserRepository.GetByEmail, hf]
    | none =>
      rw [hmail, getByEmail_of_mem hwf hu hf]
      simp only [hact]
      cases hc : lib.bcrypt.CompareHashAndPassword u.PasswordHash reqB.Password with
      | none => exact absurd hc hpw
      | some e => simp
  exact ⟨h1, h2, h1.trans h2.symm⟩

/-- C1 at the sample store: an unknown email against alice's email with a wrong password. -/
theorem C1_witness :
    Sample.db.WF ∧
    Sample.service.Login Sample.libs Sample.env Sample.db
        { Email := "nobody@x.com", Password := "password1" } =
      Sample.service.Login Sample.libs Sample.env Sample.db
        { Email := "a@x.com", Password := "wrong" } :=
  ⟨by decide,
    (C1_login_failures_indistinguishable Sample.service Sample.libs Sample.env Sample.env
      Sample.db Sample.db { Email := "nobody@x.com", Password := "password1" }
      { Email := "a@x.com", Password := "wrong" } Sample.alice
      (by decide) (by decide) (by decide) rfl rfl (by decide)).2.2⟩

/-! ## Consuming a reset token -/

/-- C2: in a store that satisfies the schema and holds an unused, unexpired reset token `t`
of user `u`, `ResetPassword` with `t` succeeds (no statement failing, the hash computed and
fitting its column) and stores the new hash for `u`, leaving every other user as it was; a
following `ResetPassword` with the same token string fails with "invalid or expired token",
at whatever time and under whatever environment it runs, and changes nothing. -/
theorem C2_reset_token_consumed_once (s : AuthService) (lib : Libs) (env1 env2 : Env) (db : DB)
    (t : PasswordResetToken) (u : User) (newPassword otherPassword hash : String)
    (hwf : db.WF) (ht : t ∈ db.password_reset_tokens)
    (hunused : t.Used = false) (hfresh : env1.dbNow < t.ExpiresAt)
    (hu : u ∈ db.users) (howner : u.ID = t.UserID)
    (hnf : ∀ st, env1.fault st = none)
    (hhash : lib.bcrypt.GenerateFromPassword newPassword env1.salt = .ok hash)
    (hlen : hash.length ≤ 255) :
    (s.ResetPassword lib env1 db { Token := t.Token, NewPassword := newPassword }).1 = none ∧
    { u with PasswordHash := hash, UpdatedAt := env1.clock 0 } ∈
      (s.ResetPassword lib env1 db { Token := t.Token, NewPassword := newPassword }).2.users ∧
    (∀ x ∈ db.users, x.ID ≠ u.ID →
      x ∈ (s.ResetPassword lib env1 db
        { Token := t.Token, NewPassword := newPassword }).2.users) ∧
    s.ResetPassword lib env2
        (s.ResetPassword lib env1 db { Token := t.Token, NewPassword := newPassword }).2
        { Token := t.Token, NewPassword := otherPassword } =
      (some "invalid or expired token",
        (s.ResetPassword lib env1 db { Token := t.Token, NewPassword := newPassword }).2) := by
  have hfind := find_token_of_mem env1.dbNow hwf.2.2.2.2.2.1 ht hunused hfresh
  have hlen2 : ¬ (255 < hash.length) := Nat.not_lt.mpr hlen
  have hrun : s.ResetPassword lib env1 db { Token := t.Token, NewPassword := newPassword } =
      (none,
        { db with
          users := db.users.map (fun x =>
            if x.ID == t.UserID then { x with PasswordHash := hash, UpdatedAt := env1.clock 0 }
            else x),
          password_reset_tokens := db.password_reset_tokens.map (fun x =>
            if x.ID == t.ID then { x with Used := true } else x) }) := by
    simp [AuthService.ResetPassword, UserRepository.GetPasswordResetToken,
      UserRepository.UpdatePassword, UserRepository.MarkTokenAsUsed, hnf, hfind, hhash, hlen2]
  rw [hrun]
  refine ⟨rfl, ?_, ?_, ?_⟩
  · simp only [List.mem_map]
    exact ⟨u, hu, by simp [howner]⟩
  · intro x hx hne
    simp only [List.mem_map]
    exact ⟨x, hx, by simp [← howner, hne]⟩
  · apply resetPassword_rejects
    intro x hx htok
    left
    simp only [List.mem_map] at hx
    obtain ⟨y, hy, rfl⟩ := hx
    have hyt : y = t := by
      apply List.inj_on_of_nodup_map hwf.2.2.2.2.2.1 hy ht
      by_cases hid : (y.ID == t.ID) = true
      · simpa [hid] using htok
      · simpa [hid] using htok
    subst hyt
    simp

/-- C2 at the sample store: alice's fresh token is accepted once and refused the second
time. -/
theorem C2_witness :
    Sample.db.WF ∧
    (Sample.service.ResetPassword Sample.libs Sample.env Sample.db
      { Token := "aa11", NewPassword := "newpass123" }).1 = none ∧
    Sample.service.ResetPassword Sample.libs Sample.env
        (Sample.service.ResetPassword Sample.libs Sample.env Sample.db
          { Token := "aa11", NewPassword := "newpass123" }).2
        { Token := "aa11", NewPassword := "newpass456" } =
      (some "invalid or expired token",
        (Sample.service.ResetPassword Sample.libs Sample.env Sample.db
          { Token := "aa11", NewPassword := "newpass123" }).2) :=
  have h := C2_reset_token_consumed_once Sample.service Sample.libs Sample.env Sample.env
    Sample.db Sample.freshToken Sample.alice "newpass123" "newpass456" "$2a$10$ss$newpass123"
    (by decide) (by decide) rfl (by decide) (by decide) rfl (fun _ => rfl) rfl (by decide)
  ⟨by decide, h.1, h.2.2.2⟩

/-- C3: `ResetPassword` with a token string for which every stored record is used or past its
expiry, and so also with a token string that is not stored at all, fails with the one error
"invalid or expired token" and leaves the whole store, users and token records, unchanged. -/
theorem C3_invalid_token_rejected_uniformly (s : AuthService) (lib : Libs) (env : Env) (db : DB)
    (req : PasswordResetConfirm)
    (h : ∀ t ∈ db.password_reset_tokens,
      t.Token = req.Token → t.Used = true ∨ t.ExpiresAt ≤ env.dbNow) :
    s.ResetPassword lib env db req = (some "invalid or expired token", db) ∧
    (s.ResetPassword lib env db req).2.users = db.users ∧
    (s.ResetPassword lib env db req).2.password_reset_tokens = db.password_reset_tokens := by
  have hr := resetPassword_rejects s lib env db req h
  rw [hr]
  exact ⟨rfl, rfl, rfl⟩

/-- C3 at the sample store: an unknown token, the used token and the expired unused token
are refused with the same result. -/
theorem C3_witness :
    Sample.service.ResetPassword Sample.libs Sample.env Sample.db
        { Token := "zz99", NewPassword := "newpass123" } =
      (some "invalid or expired token", Sample.db) ∧
    Sample.service.ResetPassword Sample.libs Sample.env Sample.db
        { Token := "bb22", NewPassword := "newpass123" } =
      (some "invalid or expired token", Sample.db) ∧
    Sample.service.ResetPassword Sample.libs Sample.env Sample.db
        { Token := "cc33", NewPassword := "newpass123" } =
      (some "invalid or expired token", Sample.db) :=
  ⟨(C3_invalid_token_rejected_uniformly Sample.service Sample.libs Sample.env Sample.db
      { Token := "zz99", NewPassword := "newpass123" } (by decide)).1,
    (C3_invalid_token_rejected_uniformly Sample.service Sample.libs Sample.env Sample.db
      { Token := "bb22", NewPassword := "newpass123" } (by decide)).1,
    (C3_invalid_token_rejected_uniformly Sample.service Sample.libs Sample.env Sample.db
      { Token := "cc33", NewPassword := "newpass123" } (by decide)).1⟩

/-! ## Requesting a password reset -/

/-- A lookup that returns a user returns a stored user with the requested email. -/
theorem getByEmail_ok {db : DB} {env : Env} {email : String} {u : User}
    (h : UserRepository.GetByEmail db env email = .ok u) :
    u ∈ db.users ∧ u.Email = email := by
  unfold UserRepository.GetByEmail at h
  cases hf : env.fault Stmt.selectUserByEmail with
  | some e => simp [hf] at h
  | none =>
    simp only [hf] at h
    cases hq : db.users.find? (fun x => x.Email == email) with
    | none => simp [hq] at h
    | some v =>
      simp only [hq, Except.ok.injEq] at h
      subst h
      exact ⟨List.mem_of_find?_eq_some hq, by simpa using List.find?_some hq⟩

/-- For a request whose email passes `ValidateEmail`, the handler sends either the generic
success message or status 500 with "failed to process password reset request"; and it sends
the latter only when the lookup returned a user, that is, only for an email that is stored. -/
theorem error_reply_only_for_stored_email (s : AuthService) (env : Env) (db : DB)
    (req : PasswordResetRequest)
    (hv : validator.ValidateEmail req.Email = none) :
    ((AuthHandler.RequestPasswordReset s env db (some req)).reply = genericResetReply ∨
      (AuthHandler.RequestPasswordReset s env db (some req)).reply =
        Reply.Error 500 "failed to process password reset request") ∧
    ((AuthHandler.RequestPasswordReset s env db (some req)).reply ≠ genericResetReply →
      ∃ u ∈ db.users, u.Email = req.Email) := by
  cases hg : UserRepository.GetByEmail db env req.Email with
  | error e =>
    have hrun : s.RequestPasswordReset env db req.Email = (.ok "", db) := by
      simp only [AuthService.RequestPasswordReset, hg]
    have hreply : (AuthHandler.RequestPasswordReset s env db (some req)).reply =
        genericResetReply := by
      simp only [AuthHandler.RequestPasswordReset, hv, hrun, genericResetReply]
    exact ⟨Or.inl hreply, fun hne => absurd hreply hne⟩
  | ok u =>
    refine ⟨?_, fun _ => ⟨u, (getByEmail_ok hg).1, (getByEmail_ok hg).2⟩⟩
    rcases hrun : s.RequestPasswordReset env db req.Email with ⟨res, db1⟩
    cases res with
    | error e =>
      right
      simp only [AuthHandler.RequestPasswordReset, hv, hrun,
        AuthHandler.StatusInternalServerError]
    | ok token =>
      left
      simp only [AuthHandler.RequestPasswordReset, hv, hrun, genericResetReply]

/-- For a request whose email passes `ValidateEmail`: when the lookup returns a user, 32 bytes
are read, and the insert of the reset token fails in the driver, the handler replies with
status 500 and "failed to process password reset request", starts no mail and leaves the
store as it was. -/
theorem insert_failure_gives_error_reply (s : AuthService) (env : Env) (db : DB)
    (req : PasswordResetRequest) (u : User) (bytes : Fin 32 → Fin 256) (e : String)
    (hv : validator.ValidateEmail req.Email = none)
    (hg : UserRepository.GetByEmail db env req.Email = .ok u)
    (hr : env.randRead = .ok bytes)
    (hf : env.fault Stmt.insertPasswordResetToken = some e) :
    AuthHandler.RequestPasswordReset s env db (some req) =
      { reply := Reply.Error 500 "failed to process password reset request",
        mails := [], db := db } := by
  have hrun : s.RequestPasswordReset env db req.Email =
      (.error ("failed to create reset token: " ++
        ("failed to create password reset token: " ++ e)), db) := by
    simp only [AuthService.RequestPasswordReset, hg, hr,
      UserRepository.CreatePasswordResetToken, hf]
  simp only [AuthHandler.RequestPasswordReset, hv, hrun,
    AuthHandler.StatusInternalServerError]

/-- For a request whose email passes `ValidateEmail`: when the lookup returns no user, the
handler replies with the generic success message, starts no mail and leaves the store as it
was. -/
theorem unknown_email_gives_generic_reply (s : AuthService) (env : Env) (db : DB)
    (req : PasswordResetRequest)
    (hv : validator.ValidateEmail req.Email = none)
    (hno : ∀ v, UserRepository.GetByEmail db env req.Email ≠ .ok v) :
    AuthHandler.RequestPasswordReset s env db (some req) =
      { reply := genericResetReply, mails := [], db := db } := by
  have hrun : s.RequestPasswordReset env db req.Email = (.ok "", db) := by
    unfold AuthService.RequestPasswordReset
    cases hg : UserRepository.GetByEmail db env req.Email with
    | error e => rfl
    | ok v => exact absurd hg (hno v)
  simp [AuthHandler.RequestPasswordReset, hv, hrun, genericResetReply]

/-- C4 is broken by the code at a stored email whose token insert fails: in the sample store,
with the insert of the reset token failing in the driver, the service returns an error for
alice's email and the handler replies with status 500 and "failed to process password reset
request", while in the same environment an unknown email gets the generic success message;
the two replies differ, so the reply is not independent of the branch taken and tells a
stored email from an unknown one. -/
theorem C4_insert_failure_reveals_stored_email :
    validator.ValidateEmail "a@x.com" = none ∧
    validator.ValidateEmail "nobody@x.com" = none ∧
    (Sample.service.RequestPasswordReset Sample.envInsertTokenFails Sample.db "a@x.com").1 =
      .error ("failed to create reset token: " ++
        ("failed to create password reset token: " ++ "connection refused")) ∧
    (AuthHandler.RequestPasswordReset Sample.service Sample.envInsertTokenFails Sample.db
      (some { Email := "a@x.com" })).reply =
      Reply.Error 500 "failed to process password reset request" ∧
    (AuthHandler.RequestPasswordReset Sample.service Sample.envInsertTokenFails Sample.db
      (some { Email := "nobody@x.com" })).reply = genericResetReply ∧
    (AuthHandler.RequestPasswordReset Sample.service Sample.envInsertTokenFails Sample.db
      (some { Email := "a@x.com" })).reply ≠
      (AuthHandler.RequestPasswordReset Sample.service Sample.envInsertTokenFails Sample.db
        (some { Email := "nobody@x.com" })).reply := by
  refine ⟨?_, ?_, rfl, ?_, ?_, ?_⟩ <;> decide

/-- A successful insert of a reset token appends exactly one row, unused, and advances the
sequence; nothing else changes. -/
theorem createToken_ok {db db1 : DB} {env : Env} {tok r : PasswordResetToken}
    (h : UserRepository.CreatePasswordResetToken db env tok = (.ok r, db1)) :
    db1 =
      { db with
        password_reset_tokens := db.password_reset_tokens ++
          [{ ID := db.password_reset_tokens_id_seq, UserID := tok.UserID, Token := tok.Token,
             ExpiresAt := tok.ExpiresAt, Used := false, CreatedAt := env.dbNow }],
        password_reset_tokens_id_seq := db.password_reset_tokens_id_seq + 1 } := by
  unfold UserRepository.CreatePasswordResetToken at h
  cases hf : env.fault Stmt.insertPasswordResetToken with
  | some e => simp [hf] at h
  | none =>
    simp only [hf] at h
    split at h
    · simp at h
    · cases hi : UserRepository.tokenConstraintErr db tok with
      | some e => simp [hi] at h
      | none =>
        simp only [hi, Prod.mk.injEq] at h
        exact h.2.symm

/-- C5: for an email that no stored user has, `RequestPasswordReset` returns the empty token
and no error and leaves the store unchanged; for the email of a stored user (the lookup
reaching the server), a call that succeeds with token `token` leaves a store that differs from
the old one only by one appended reset-token row for that user, unused, and by the advanced
sequence: users and all earlier token rows are as before. -/
theorem C5_request_reset_frame (s : AuthService) (env : Env) (db : DB) (email : String) :
    ((∀ u ∈ db.users, u.Email ≠ email) →
      s.RequestPasswordReset env db email = (.ok "", db)) ∧
    (∀ (u : User) (token : String) (db1 : DB),
      db.WF → u ∈ db.users → u.Email = email →
      env.fault Stmt.selectUserByEmail = none →
      s.RequestPasswordReset env db email = (.ok token, db1) →
      db1 =
        { db with
          password_reset_tokens := db.password_reset_tokens ++
            [{ ID := db.password_reset_tokens_id_seq, UserID := u.ID, Token := token,
               ExpiresAt := env.clock 0 + 1 * Hour, Used := false, CreatedAt := env.dbNow }],
          password_reset_tokens_id_seq := db.password_reset_tokens_id_seq + 1 }) := by
  constructor
  · intro h
    obtain ⟨e, he⟩ := getByEmail_absent env h
    simp [AuthService.RequestPasswordReset, he]
  · intro u token db1 hwf hu hmail hnf hrun
    subst hmail
    unfold AuthService.RequestPasswordReset at hrun
    rw [getByEmail_of_mem hwf hu hnf] at hrun
    simp only at hrun
    cases hr : env.randRead with
    | error e => simp [hr] at hrun
    | ok bytes =>
      simp only [hr] at hrun
      generalize hexEncodeToString (List.ofFn bytes) = tk at hrun
      rcases hc : UserRepository.CreatePasswordResetToken db env
          { ID := 0, UserID := u.ID, Token := tk,
            ExpiresAt := env.clock 0 + 1 * Hour, Used := false, CreatedAt := 0 } with ⟨res, db2⟩
      rw [hc] at hrun
      cases res with
      | error e => simp at hrun
      | ok r =>
        simp only [Prod.mk.injEq, Except.ok.injEq] at hrun
        obtain ⟨htok, hdb⟩ := hrun
        subst htok hdb
        exact createToken_ok hc

/-- C5 at the sample store: an unknown email changes nothing; alice's email appends one
token row after the three rows already stored. -/
theorem C5_witness :
    Sample.service.RequestPasswordReset Sample.env Sample.db "nobody@x.com" =
      (.ok "", Sample.db) ∧
    (Sample.service.RequestPasswordReset Sample.env Sample.db "a@x.com").2 =
      { Sample.db with
        password_reset_tokens := Sample.db.password_reset_tokens ++
          [{ ID := 4, UserID := 1,
             Token := "abacadaeafb0b1b2b3b4b5b6b7b8b9babbbcbdbebfc0c1c2c3c4c5c6c7c8c9ca",
             ExpiresAt := 1000 + 1 * Hour, Used := false, CreatedAt := 1000 }],
        password_reset_tokens_id_seq := 4 + 1 } :=
  ⟨(C5_request_reset_frame Sample.service Sample.env Sample.db "nobody@x.com").1 (by decide),
    (C5_request_reset_frame Sample.service Sample.env Sample.db "a@x.com").2 Sample.alice
      "abacadaeafb0b1b2b3b4b5b6b7b8b9babbbcbdbebfc0c1c2c3c4c5c6c7c8c9ca" _
      (by decide) (by decide) rfl rfl rfl⟩

/-! ## Registration -/

/-- Registration stops at the pre-check when the lookup returns a user. -/
theorem register_duplicate (s : AuthService) (lib : Libs) {env : Env} {db : DB}
    {req : RegisterRequest} {v : User}
    (h : UserRepository.GetByEmail db env req.Email = .ok v) :
    s.Register lib env db req = (.error "user with this email already exists", db) := by
  simp [AuthService.Register, h, Except.toOption]

/-- The users table after `Create`: one more row on success, unchanged on failure. -/
theorem create_users (db : DB) (env : Env) (user : User) :
    (∀ st db1, UserRepository.Create db env user = (.ok st, db1) →
      st.Email = user.Email ∧ ∃ row : User, row.Email = user.Email ∧
        db1.users = db.users ++ [row]) ∧
    (∀ e db1, UserRepository.Create db env user = (.error e, db1) → db1.users = db.users) := by
  unfold UserRepository.Create
  cases hf : env.fault Stmt.insertUser with
  | some e =>
    refine ⟨fun st db1 h => by simp at h, fun e1 db1 h => ?_⟩
    simp only [Prod.mk.injEq] at h
    rw [← h.2]
  | none =>
    cases hw : UserRepository.usersWidthErr user with
    | some e =>
      refine ⟨fun st db1 h => by simp at h, fun e1 db1 h => ?_⟩
      simp only [Prod.mk.injEq] at h
      rw [← h.2]
    | none =>
      cases hi : UserRepository.usersUniqueErr db user with
      | some e =>
        refine ⟨fun st db1 h => by simp at h, fun e1 db1 h => ?_⟩
        simp only [Prod.mk.injEq] at h
        rw [← h.2]
      | none =>
        refine ⟨fun st db1 h => ?_, fun e1 db1 h => by simp at h⟩
        simp only [Prod.mk.injEq, Except.ok.injEq] at h
        obtain ⟨h1, h2⟩ := h
        subst h1 h2
        refine ⟨rfl, _, ?_, rfl⟩
        rfl

/-- Attaching interests never touches the users table. -/
theorem addUserInterests_users (db : DB) (env : Env) (userID : Int) (interestIDs : List Int) :
    (UserRepository.AddUserInterests db env userID interestIDs).2.users = db.users := by
  unfold UserRepository.AddUserInterests
  split
  · rfl
  · split
    · rfl
    · split
      · rfl
      · split <;> rfl

/-- A successful registration appends exactly one user row, carrying the request's email. -/
theorem register_ok_users {s : AuthService} {lib : Libs} {env : Env} {db db1 : DB}
    {req : RegisterRequest} {resp : AuthResponse}
    (h : s.Register lib env db req = (.ok resp, db1)) :
    ∃ row : User, row.Email = req.Email ∧ db1.users = db.users ++ [row] := by
  unfold AuthService.Register at h
  simp only at h
  split at h
  · simp at h
  · split at h
    · simp at h
    · rename_i hashedPassword hh
      split at h
      · simp at h
      · rename_i user dbc hc
        obtain ⟨_, row, hrow, husers⟩ := (create_users db env _).1 _ _ hc
        refine ⟨row, hrow, ?_⟩
        split at h
        · simp at h
        · simp only [Prod.mk.injEq] at h
          rw [← h.2]
          split
          · rw [addUserInterests_users, husers]
          · exact husers

/-- C6: when a user with the request's email is stored (and the lookup reaches the server),
`Register` fails with "user with this email already exists" and returns the store unchanged;
hence after a successful registration a second attempt with the same email fails with that
error, and the number of user rows is the original number plus one, after the first call and
still after the second. -/
theorem C6_register_same_email_twice (s : AuthService) (lib : Libs) (env1 env2 : Env) (db : DB)
    (req1 req2 : RegisterRequest)
    (hsame : req2.Email = req1.Email)
    (hnf : env2.fault Stmt.selectUserByEmail = none) :
    ((∃ u ∈ db.users, u.Email = req2.Email) →
      s.Register lib env2 db req2 = (.error "user with this email already exists", db)) ∧
    (∀ (resp : AuthResponse) (db1 : DB),
      s.Register lib env1 db req1 = (.ok resp, db1) →
      s.Register lib env2 db1 req2 = (.error "user with this email already exists", db1) ∧
      db1.users.length = db.users.length + 1 ∧
      (s.Register lib env2 db1 req2).2.users.length = db.users.length + 1) := by
  constructor
  · intro hex
    obtain ⟨v, hv⟩ := getByEmail_present hex hnf
    exact register_duplicate s lib hv
  · intro resp db1 hreg
    obtain ⟨row, hrow, husers⟩ := register_ok_users hreg
    have hex : ∃ u ∈ db1.users, u.Email = req2.Email :=
      ⟨row, by rw [husers]; simp, by rw [hrow, hsame]⟩
    obtain ⟨v, hv⟩ := getByEmail_present hex hnf
    have h2 := register_duplicate s lib hv
    refine ⟨h2, by rw [husers]; simp, ?_⟩
    rw [h2, husers]
    simp

/-- C6 at the sample store: registering alice's email again is refused and writes nothing;
registering carol succeeds, and registering her email a second time is refused, with three
user rows where there were two. -/
theorem C6_witness :
    Sample.service.Register Sample.libs Sample.env Sample.db
        { Sample.registerCarol with Email := "a@x.com" } =
      (.error "user with this email already exists", Sample.db) ∧
    (Sample.service.Register Sample.libs Sample.env
        (Sample.service.Register Sample.libs Sample.env Sample.db Sample.registerCarol).2
        Sample.registerCarol).1 = .error "user with this email already exists" ∧
    (Sample.service.Register Sample.libs Sample.env
        (Sample.service.Register Sample.libs Sample.env Sample.db Sample.registerCarol).2
        Sample.registerCarol).2.users.length = 2 + 1 :=
  ⟨(C6_register_same_email_twice Sample.service Sample.libs Sample.env Sample.env Sample.db
      { Sample.registerCarol with Email := "a@x.com" }
      { Sample.registerCarol with Email := "a@x.com" } rfl rfl).1 (by decide),
    congrArg Prod.fst
      ((C6_register_same_email_twice Sample.service Sample.libs Sample.env Sample.env Sample.db
        Sample.registerCarol Sample.registerCarol rfl rfl).2 _ _ rfl).1,
    ((C6_register_same_email_twice Sample.service Sample.libs Sample.env Sample.env Sample.db
        Sample.registerCarol Sample.registerCarol rfl rfl).2 _ _ rfl).2.2⟩

/-- The text of a wrapped insert failure is never the text of the duplicate-user error. -/
theorem createErr_ne_duplicate (x : String) :
    "failed to create user: " ++ x ≠ "user with this email already exists" := by
  intro h
  have h2 := congrArg (fun s => s.data.head?) h
  simp only [String.data_append] at h2
  simp at h2

/-- C7, as stated, fails: in the sample store, a registration with a new email and alice's
username passes the pre-check, is rejected by the insert, and `Register` returns the wrapped
text of the store's error, which is not "user with this email already exists". -/
theorem C7_counterexample :
    (UserRepository.GetByEmail Sample.db Sample.env Sample.registerAliceAgain.Email).toOption
      = none ∧
    (Sample.service.Register Sample.libs Sample.env Sample.db Sample.registerAliceAgain).1 =
      .error ("failed to create user: " ++
        ("failed to create user: " ++
          Sample.env.errText (SqlErr.uniqueViolation "users_username_key"))) ∧
    (Sample.service.Register Sample.libs Sample.env Sample.db Sample.registerAliceAgain).1 ≠
      .error "user with this email already exists" := by
  refine ⟨rfl, rfl, ?_⟩
  intro h
  have h2 : (Sample.service.Register Sample.libs Sample.env Sample.db
      Sample.registerAliceAgain).1 = .error ("failed to create user: " ++
        ("failed to create user: " ++
          Sample.env.errText (SqlErr.uniqueViolation "users_username_key"))) := rfl
  rw [h2] at h
  exact createErr_ne_duplicate _ (Except.error.inj h)

/-- C7, amended: when the pre-check lookup returns no user, the password is hashed, and the
insert reaches the server with values that fit their columns and is rejected by a uniqueness
constraint because the email or the username is already taken, `Register` does not return the
duplicate-user error: it returns "failed to create user: failed to create user: " followed by
the store's text for the violated constraint (`users_email_key` when the email is taken,
otherwise `users_username_key`), a text different from "user with this email already exists";
no user row is written, only the id sequence has advanced. -/
theorem C7_unique_violation_is_wrapped (s : AuthService) (lib : Libs) (env : Env) (db : DB)
    (req : RegisterRequest) (hash : String)
    (hpre : ∀ v, UserRepository.GetByEmail db env req.Email ≠ .ok v)
    (hhash : lib.bcrypt.GenerateFromPassword req.Password env.salt = .ok hash)
    (hnf : env.fault Stmt.insertUser = none)
    (hemail : req.Email.length ≤ 255) (hname : req.Username.length ≤ 100)
    (hlen : hash.length ≤ 255)
    (hfirst : (req.FirstName.getD "").length ≤ 100)
    (hlast : (req.LastName.getD "").length ≤ 100)
    (htaken : ∃ u ∈ db.users, u.Username = req.Username ∨ u.Email = req.Email) :
    s.Register lib env db req =
      (.error ("failed to create user: " ++ ("failed to create user: " ++
          env.errText (SqlErr.uniqueViolation
            (if db.users.any (fun u => u.Email == req.Email) then "users_email_key"
             else "users_username_key")))),
        { db with users_id_seq := db.users_id_seq + 1 }) ∧
    "failed to create user: " ++ ("failed to create user: " ++
        env.errText (SqlErr.uniqueViolation
          (if db.users.any (fun u => u.Email == req.Email) then "users_email_key"
           else "users_username_key"))) ≠
      "user with this email already exists" ∧
    (s.Register lib env db req).2.users = db.users := by
  have hnone : (UserRepository.GetByEmail db env req.Email).toOption = none := by
    cases hg : UserRepository.GetByEmail db env req.Email with
    | error e => rfl
    | ok v => exact absurd hg (hpre v)
  have hw : UserRepository.usersWidthErr
      { ID := 0, Email := req.Email, Username := req.Username,
        PasswordHash := hash, FirstName := req.FirstName,
        LastName := req.LastName, Bio := none, AvatarURL := none,
        IsVerified := false, IsActive := true, CreatedAt := 0, UpdatedAt := 0 } = none := by
    simp only [UserRepository.usersWidthErr, gt_iff_lt, Nat.not_lt.mpr hemail,
      Nat.not_lt.mpr hname, Nat.not_lt.mpr hlen, Nat.not_lt.mpr hfirst, Nat.not_lt.mpr hlast,
      if_false]
  have hrej : UserRepository.usersUniqueErr db
      { ID := 0, Email := req.Email, Username := req.Username,
        PasswordHash := hash, FirstName := req.FirstName,
        LastName := req.LastName, Bio := none, AvatarURL := none,
        IsVerified := false, IsActive := true, CreatedAt := 0, UpdatedAt := 0 } =
      some (SqlErr.uniqueViolation
        (if db.users.any (fun u => u.Email == req.Email) then "users_email_key"
         else "users_username_key")) := by
    unfold UserRepository.usersUniqueErr
    obtain ⟨u, hu, hor⟩ := htaken
    by_cases hm : (db.users.any fun x => x.Email == req.Email) = true
    · simp only [hm, if_true]
    · have hname2 : (db.users.any fun x => x.Username == req.Username) = true := by
        rcases hor with hn | hmail
        · exact List.any_eq_true.mpr ⟨u, hu, by simpa using hn⟩
        · exact absurd (List.any_eq_true.mpr ⟨u, hu, by simpa using hmail⟩) hm
      simp only [hm, hname2, if_true]
      rfl
  have hrun : s.Register lib env db req =
      (.error ("failed to create user: " ++ ("failed to create user: " ++
          env.errText (SqlErr.uniqueViolation
            (if db.users.any (fun u => u.Email == req.Email) then "users_email_key"
             else "users_username_key")))),
        { db with users_id_seq := db.users_id_seq + 1 }) := by
    simp only [AuthService.Register, hnone, Option.isSome_none, hhash,
      UserRepository.Create, hnf, hw, hrej]
    rfl
  refine ⟨hrun, createErr_ne_duplicate _, ?_⟩
  rw [hrun]

/-- C7 amended, at the sample store: the registration with a new email and alice's username
is refused with the wrapped text for `users_username_key` and leaves the two user rows. -/
theorem C7_witness :
    (Sample.service.Register Sample.libs Sample.env Sample.db Sample.registerAliceAgain).1 =
      .error ("failed to create user: " ++ ("failed to create user: " ++
        Sample.env.errText (SqlErr.uniqueViolation "users_username_key"))) ∧
    (Sample.service.Register Sample.libs Sample.env Sample.db
      Sample.registerAliceAgain).2.users = Sample.db.users :=
  have h := C7_unique_violation_is_wrapped Sample.service Sample.libs Sample.env Sample.db
    Sample.registerAliceAgain "$2a$10$ss$password3" (by intro v h; cases h) rfl rfl
    (by decide) (by decide) (by decide) (by decide) (by decide) (by decide)
  ⟨congrArg Prod.fst h.1, h.2.2⟩

/-! ## Bearer tokens -/

/-- The token `generateToken` returns: method HS256, the issued claims, and their keyed hash
under the service's secret. -/
theorem generateToken_eq (s : AuthService) (lib : Libs) (tExp tIat : Time) (user : User) :
    s.generateToken lib tExp tIat user =
      .ok { alg := "HS256", claims := issuedClaims tExp tIat user,
            signature := lib.mac jwt.SigningMethod.HS256 s.jwtSecret
              ("HS256", issuedClaims tExp tIat user) } := by
  simp [AuthService.generateToken, jwt.SignedString, jwt.SigningMethod.isHMAC, issuedClaims,
    jwt.SigningMethod.Alg]

/-- Whole seconds are monotone in the instant. -/
theorem unix_mono {a b : Time} (h : a ≤ b) : Unix a ≤ Unix b := by
  unfold Unix
  exact Nat.div_le_div_right h

/-- Adding 24 hours to an instant adds 86400 to its whole seconds. -/
theorem unix_exp (tExp : Time) : Unix (tExp + 24 * Hour) = Unix tExp + 86400 := by
  unfold Unix Hour Second
  omega

/-- Comparing an instant with a number of seconds, in the integers and in the naturals. -/
theorem time_cast_lt (now secs : Nat) :
    ((now : Int) < ((secs : Nat) : Int) * ((Second : Nat) : Int)) ↔ now < secs * Second := by
  rw [← Nat.cast_mul, Nat.cast_lt]

/-- The `exp` entry of the issued claims. -/
theorem lookup_exp (tExp tIat : Time) (user : User) :
    (issuedClaims tExp tIat user).lookup "exp" =
      some (jwt.ClaimValue.num (Unix (tExp + 24 * Hour))) := by
  simp [issuedClaims, List.lookup]

/-- The issued claims have no `nbf` entry. -/
theorem lookup_nbf (tExp tIat : Time) (user : User) :
    (issuedClaims tExp tIat user).lookup "nbf" = none := by
  simp [issuedClaims, List.lookup]

/-- Validation of claims that carry a non-zero `exp` and no `nbf`. -/
theorem validate_exp_only (now : Time) (claims : jwt.MapClaims) (exp : Int)
    (hexp : claims.lookup "exp" = some (jwt.ClaimValue.num exp)) (hne : exp ≠ 0)
    (hnbf : claims.lookup "nbf" = none) :
    jwt.Validate now claims =
      if (now : Int) < exp * (Second : Int) then none else some "token is expired" := by
  unfold jwt.Validate jwt.parseNumericDate
  rw [hexp, hnbf]
  have hb : (exp == 0) = false := by simpa using hne
  simp only [hb]
  by_cases hlt : (now : Int) < exp * (Second : Int)
  · simp [hlt]
  · simp [hlt, String.intercalate, String.intercalate.go]

/-- Validation of the issued claims: they are valid strictly before the `exp` second. -/
theorem validate_issued (now tExp tIat : Time) (user : User) :
    jwt.Validate now (issuedClaims tExp tIat user) =
      if now < (Unix tExp + 86400) * Second then none else some "token is expired" := by
  have hne : (((Unix (tExp + 24 * Hour) : Nat) : Int)) ≠ 0 := by
    rw [unix_exp]
    omega
  rw [validate_exp_only now _ _ (lookup_exp tExp tIat user) hne (lookup_nbf tExp tIat user)]
  simp only [time_cast_lt, unix_exp]

/-- The header value "HS256" names the method HS256. -/
theorem getSigningMethod_HS256 :
    jwt.GetSigningMethod "HS256" = some jwt.SigningMethod.HS256 := by
  decide

/-- The result of `ValidateToken` on a token signed with the service's secret by an HMAC
method is decided by the validation of the claims. -/
theorem validateToken_signed (s : AuthService) (lib : Libs) (now : Time)
    (m : jwt.SigningMethod) (alg : String) (claims : jwt.MapClaims)
    (hm : jwt.GetSigningMethod alg = some m) (hh : m.isHMAC = true) :
    s.ValidateToken lib now
        { alg := alg, claims := claims, signature := lib.mac m s.jwtSecret (alg, claims) } =
      match jwt.Validate now claims with
      | none => .ok claims
      | some e => .error ("token has invalid claims: " ++ e) := by
  unfold AuthService.ValidateToken jwt.Parse
  simp only [hm, AuthService.keyFunc, hh, jwt.SigningMethod.Verify]
  cases jwt.Validate now claims <;> simp

/-- C8: `generateToken` returns a token whose `exp` is 24 hours after the first clock reading
and whose `iat` is the second reading, in whole seconds; `ValidateToken` with the same secret
accepts it at every instant before `exp` and returns claims whose `user_id`, `email` and
`username` are the user's `ID`, `Email` and `Username`; and it rejects the token at every
instant from `iat` plus 86400 seconds on. -/
theorem C8_issue_then_validate (s : AuthService) (lib : Libs) (user : User) (tExp tIat : Time)
    (hclock : tExp ≤ tIat) :
    ∃ tok : jwt.TokenString,
      s.generateToken lib tExp tIat user = .ok tok ∧
      tok.claims.lookup "exp" = some (jwt.ClaimValue.num (Unix (tExp + 24 * Hour))) ∧
      tok.claims.lookup "iat" = some (jwt.ClaimValue.num (Unix tIat)) ∧
      (∀ now : Time, now < Unix (tExp + 24 * Hour) * Second →
        ∃ claims : jwt.MapClaims,
          s.ValidateToken lib now tok = .ok claims ∧
          claims.lookup "user_id" = some (jwt.ClaimValue.num user.ID) ∧
          claims.lookup "email" = some (jwt.ClaimValue.str user.Email) ∧
          claims.lookup "username" = some (jwt.ClaimValue.str user.Username)) ∧
      (∀ now : Time, (Unix tIat + 86400) * Second ≤ now →
        ∃ e, s.ValidateToken lib now tok = .error e) := by
  refine ⟨_, generateToken_eq s lib tExp tIat user, lookup_exp tExp tIat user,
    by simp [issuedClaims, List.lookup], ?_, ?_⟩
  · intro now hnow
    rw [unix_exp] at hnow
    refine ⟨issuedClaims tExp tIat user, ?_, by simp [issuedClaims, List.lookup],
      by simp [issuedClaims, List.lookup], by simp [issuedClaims, List.lookup]⟩
    rw [validateToken_signed s lib now _ _ _ getSigningMethod_HS256 rfl, validate_issued,
      if_pos hnow]
  · intro now hnow
    have hle : (Unix tExp + 86400) * Second ≤ now :=
      Nat.le_trans (Nat.mul_le_mul_right _ (Nat.add_le_add_right (unix_mono hclock) _)) hnow
    rw [validateToken_signed s lib now _ _ _ getSigningMethod_HS256 rfl, validate_issued,
      if_neg (Nat.not_lt.mpr hle)]
    exact ⟨_, rfl⟩

/-- C8 for alice, with clock readings 1000 and 1001: the issued token is accepted at instant
2000 and refused 86400 seconds after the second of issue. -/
theorem C8_witness :
    (1000 : Time) ≤ 1001 ∧
    ∃ tok : jwt.TokenString,
      Sample.service.generateToken Sample.libs 1000 1001 Sample.alice = .ok tok ∧
      (∃ claims, Sample.service.ValidateToken Sample.libs 2000 tok = .ok claims ∧
        claims.lookup "username" = some (jwt.ClaimValue.str "alice")) ∧
      (∃ e, Sample.service.ValidateToken Sample.libs (86400 * Second) tok = .error e) :=
  ⟨by decide,
    (C8_issue_then_validate Sample.service Sample.libs Sample.alice 1000 1001
      (by decide)).elim (fun tok h =>
        ⟨tok, h.1,
          (h.2.2.2.1 2000 (by decide)).elim (fun claims hc => ⟨claims, hc.1, hc.2.2.2⟩),
          h.2.2.2.2 (86400 * Second) (by decide)⟩)⟩

/-- A token whose method the key function refuses yields no claims. -/
theorem validateToken_rejects (s : AuthService) (lib : Libs) (now : Time)
    (tokenString : jwt.TokenString)
    (h : ∀ m, jwt.GetSigningMethod tokenString.alg = some m → m.isHMAC = false) :
    ∃ e, s.ValidateToken lib now tokenString = .error e := by
  unfold AuthService.ValidateToken jwt.Parse
  cases hm : jwt.GetSigningMethod tokenString.alg with
  | none => exact ⟨_, rfl⟩
  | some m =>
    simp only [AuthService.keyFunc, h m hm]
    exact ⟨_, rfl⟩

/-- C9: the key function of `ValidateToken` returns an error exactly when the token's method is
not an HMAC method, and returns a key (the secret) only for an HMAC method; and `ValidateToken`
returns an error, hence no claims, for every token whose `alg` header names no HMAC method,
whatever its claims and signature and at whatever instant. -/
theorem C9_non_hmac_rejected (s : AuthService) (lib : Libs) (now : Time) :
    (∀ token : jwt.Token,
      ((∃ e, s.keyFunc token = .error e) ↔ token.Method.isHMAC = false) ∧
      (∀ key, s.keyFunc token = .ok key → token.Method.isHMAC = true)) ∧
    (∀ tokenString : jwt.TokenString,
      (∀ m, jwt.GetSigningMethod tokenString.alg = some m → m.isHMAC = false) →
      ∃ e, s.ValidateToken lib now tokenString = .error e) := by
  refine ⟨fun token => ?_, fun tokenString h => validateToken_rejects s lib now tokenString h⟩
  unfold AuthService.keyFunc
  cases hh : token.Method.isHMAC <;> simp

/-- C9 for a token that declares the method "none" and carries alice's claims. -/
theorem C9_witness :
    ∃ e, Sample.service.ValidateToken Sample.libs 1000
      { alg := "none", claims := issuedClaims 1000 1001 Sample.alice, signature := "" } =
        .error e :=
  (C9_non_hmac_rejected Sample.service Sample.libs 1000).2
    { alg := "none", claims := issuedClaims 1000 1001 Sample.alice, signature := "" }
    (by decide)

/-! ## Deactivated accounts -/

/-- C10: for a stored user whose active flag is false (store satisfying the schema, lookup
reaching the server), `Login` with that user's email fails with "account is deactivated",
whatever password is supplied and whatever bcrypt says about it; the result carries no token,
and the text differs from "invalid email or password". -/
theorem C10_inactive_user_rejected (s : AuthService) (lib : Libs) (env : Env) (db : DB)
    (u : User) (req : LoginRequest)
    (hwf : db.WF) (hu : u ∈ db.users) (hinactive : u.IsActive = false)
    (hmail : req.Email = u.Email)
    (hnf : env.fault Stmt.selectUserByEmail = none) :
    s.Login lib env db req = .error "account is deactivated" ∧
    (s.Login lib env db req).toOption = none ∧
    ("account is deactivated" : String) ≠ "invalid email or password" := by
  have h : s.Login lib env db req = .error "account is deactivated" := by
    unfold AuthService.Login
    rw [hmail, getByEmail_of_mem hwf hu hnf]
    simp [hinactive]
  refine ⟨h, by rw [h]; rfl, by decide⟩

/-- C10 at the sample store: bob is deactivated and is refused with his correct password. -/
theorem C10_witness :
    Sample.bcrypt.CompareHashAndPassword Sample.bob.PasswordHash "password2" = none ∧
    Sample.service.Login Sample.libs Sample.env Sample.db
        { Email := "b@x.com", Password := "password2" } = .error "account is deactivated" :=
  ⟨by decide,
    (C10_inactive_user_rejected Sample.service Sample.libs Sample.env Sample.db Sample.bob
      { Email := "b@x.com", Password := "password2" }
      (by decide) (by decide) rfl rfl rfl).1⟩

/-! ## A reset whose token cannot be marked as used -/

/-- C11: in a store that satisfies the schema and holds an unused, unexpired reset token `t` of
user `u`, when the lookup and the password update reach the server (hash computed and
fitting its column) and marking the token as used fails, `ResetPassword` returns an error,
the new hash is stored for `u`, and the token rows are exactly as before, `t` still unused. -/
theorem C11_mark_used_failure_keeps_password (s : AuthService) (lib : Libs) (env : Env)
    (db : DB) (t : PasswordResetToken) (u : User) (newPassword hash e : String)
    (hwf : db.WF) (ht : t ∈ db.password_reset_tokens)
    (hunused : t.Used = false) (hfresh : env.dbNow < t.ExpiresAt)
    (hu : u ∈ db.users) (howner : u.ID = t.UserID)
    (hsel : env.fault Stmt.selectPasswordResetToken = none)
    (hupd : env.fault Stmt.updatePassword = none)
    (hmark : env.fault Stmt.markTokenAsUsed = some e)
    (hhash : lib.bcrypt.GenerateFromPassword newPassword env.salt = .ok hash)
    (hlen : hash.length ≤ 255) :
    (s.ResetPassword lib env db { Token := t.Token, NewPassword := newPassword }).1 =
      some ("failed to mark token as used: " ++ ("failed to mark token as used: " ++ e)) ∧
    { u with PasswordHash := hash, UpdatedAt := env.clock 0 } ∈
      (s.ResetPassword lib env db { Token := t.Token, NewPassword := newPassword }).2.users ∧
    (s.ResetPassword lib env db
      { Token := t.Token, NewPassword := newPassword }).2.password_reset_tokens =
      db.password_reset_tokens ∧
    t ∈ (s.ResetPassword lib env db
      { Token := t.Token, NewPassword := newPassword }).2.password_reset_tokens := by
  have hfind := find_token_of_mem env.dbNow hwf.2.2.2.2.2.1 ht hunused hfresh
  have hlen2 : ¬ (255 < hash.length) := Nat.not_lt.mpr hlen
  have hrun : s.ResetPassword lib env db { Token := t.Token, NewPassword := newPassword } =
      (some ("failed to mark token as used: " ++ ("failed to mark token as used: " ++ e)),
        { db with
          users := db.users.map (fun x =>
            if x.ID == t.UserID then { x with PasswordHash := hash, UpdatedAt := env.clock 0 }
            else x) }) := by
    simp [AuthService.ResetPassword, UserRepository.GetPasswordResetToken,
      UserRepository.UpdatePassword, UserRepository.MarkTokenAsUsed, hsel, hupd, hmark,
      hfind, hhash, hlen2]
  rw [hrun]
  refine ⟨rfl, ?_, rfl, ht⟩
  simp only [List.mem_map]
  exact ⟨u, hu, by simp [howner]⟩

/-- C11 at the sample store: marking alice's fresh token fails, the call returns the error,
and the token row is still there, unused. -/
theorem C11_witness :
    Sample.db.WF ∧
    (Sample.service.ResetPassword Sample.libs Sample.envMarkUsedFails Sample.db
      { Token := "aa11", NewPassword := "newpass123" }).1 =
      some ("failed to mark token as used: " ++
        ("failed to mark token as used: " ++ "connection reset")) ∧
    Sample.freshToken ∈
      (Sample.service.ResetPassword Sample.libs Sample.envMarkUsedFails Sample.db
        { Token := "aa11", NewPassword := "newpass123" }).2.password_reset_tokens :=
  have h := C11_mark_used_failure_keeps_password Sample.service Sample.libs
    Sample.envMarkUsedFails Sample.db Sample.freshToken Sample.alice "newpass123"
    "$2a$10$ss$newpass123" "connection reset"
    (by decide) (by decide) rfl (by decide) (by decide) rfl rfl rfl rfl rfl (by decide)
  ⟨by decide, h.1, h.2.2.2⟩

/-! ## The reset-token record -/

/-- Every index below sixteen selects a lower-case hexadecimal digit. -/
theorem hexDigit_mem (i : Nat) (hi : i < 16) :
    "0123456789abcdef".toList.getD i '0' ∈ hexDigits := by
  interval_cases i <;> decide

/-- The encoding has two characters per byte, all of them hexadecimal digits. -/
theorem hexEncode_spec (src : List (Fin 256)) :
    (hexEncodeToString src).length = 2 * src.length ∧
    ∀ c ∈ (hexEncodeToString src).toList, c ∈ hexDigits := by
  unfold hexEncodeToString
  simp only [String.length, String.toList]
  induction src with
  | nil => simp
  | cons b rest ih =>
    simp only [List.flatMap_cons, List.length_append, List.length_cons, List.length_nil,
      List.mem_append, List.mem_cons, List.mem_singleton]
    refine ⟨by omega, ?_⟩
    intro c hc
    rcases hc with (hc | hc | hc) | hc
    · rw [hc]
      exact hexDigit_mem _ (by omega)
    · rw [hc]
      exact hexDigit_mem _ (by omega)
    · cases hc
    · exact ih.2 c hc

/-- The two ways in which `RequestPasswordReset` returns without an error: the lookup gave
no user, the token is empty and the store is untouched; or the lookup gave a user, 32 bytes
were read, the token is their encoding and one row was appended. -/
theorem requestPasswordReset_ok {s : AuthService} {env : Env} {db db1 : DB}
    {email token : String}
    (h : s.RequestPasswordReset env db email = (.ok token, db1)) :
    ((∃ e, UserRepository.GetByEmail db env email = .error e) ∧ token = "" ∧ db1 = db) ∨
    (∃ (u : User) (bytes : Fin 32 → Fin 256),
      UserRepository.GetByEmail db env email = .ok u ∧ env.randRead = .ok bytes ∧
      token = hexEncodeToString (List.ofFn bytes) ∧
      db1 =
        { db with
          password_reset_tokens := db.password_reset_tokens ++
            [{ ID := db.password_reset_tokens_id_seq, UserID := u.ID, Token := token,
               ExpiresAt := env.clock 0 + 1 * Hour, Used := false, CreatedAt := env.dbNow }],
          password_reset_tokens_id_seq := db.password_reset_tokens_id_seq + 1 }) := by
  unfold AuthService.RequestPasswordReset at h
  cases hg : UserRepository.GetByEmail db env email with
  | error e =>
    simp only [hg, Prod.mk.injEq, Except.ok.injEq] at h
    exact Or.inl ⟨⟨e, rfl⟩, h.1.symm, h.2.symm⟩
  | ok u =>
    simp only [hg] at h
    cases hr : env.randRead with
    | error e => simp [hr] at h
    | ok bytes =>
      simp only [hr] at h
      right
      refine ⟨u, bytes, rfl, rfl, ?_⟩
      generalize hexEncodeToString (List.ofFn bytes) = tk at h
      rcases hc : UserRepository.CreatePasswordResetToken db env
          { ID := 0, UserID := u.ID, Token := tk,
            ExpiresAt := env.clock 0 + 1 * Hour, Used := false, CreatedAt := 0 } with ⟨res, db2⟩
      rw [hc] at h
      cases res with
      | error e => simp at h
      | ok r =>
        simp only [Prod.mk.injEq, Except.ok.injEq] at h
        obtain ⟨htok, hdb⟩ := h
        subst htok hdb
        exact ⟨rfl, createToken_ok hc⟩

/-- C12: for a call of `RequestPasswordReset` that returns token `token` without error: when
the email is that of a stored user `u` (store satisfying the schema, lookup reaching the
server), the one row appended to the token table has `u`'s id, the returned token, expiry
one hour after the clock reading and `used = false`; the token is the hex encoding of the 32
bytes read from the random source, 64 characters long, all among `0`-`9`, `a`-`f`, and not
empty.  For every email, the returned token is non-empty exactly when a row was appended, and
the handler starts a mail exactly under its test `token != ""`. -/
theorem C12_reset_token_record (s : AuthService) (env : Env) (db db1 : DB)
    (email token : String)
    (hrun : s.RequestPasswordReset env db email = (.ok token, db1)) :
    (∀ u : User, db.WF → u ∈ db.users → u.Email = email →
      env.fault Stmt.selectUserByEmail = none →
      db1.password_reset_tokens = db.password_reset_tokens ++
        [{ ID := db.password_reset_tokens_id_seq, UserID := u.ID, Token := token,
           ExpiresAt := env.clock 0 + 1 * Hour, Used := false, CreatedAt := env.dbNow }] ∧
      (∃ bytes : Fin 32 → Fin 256,
        env.randRead = .ok bytes ∧ token = hexEncodeToString (List.ofFn bytes)) ∧
      token.length = 64 ∧ (∀ c ∈ token.toList, c ∈ hexDigits) ∧ token ≠ "") ∧
    (token ≠ "" ↔
      ∃ row, db1.password_reset_tokens = db.password_reset_tokens ++ [row]) ∧
    (∀ req : PasswordResetRequest, req.Email = email →
      validator.ValidateEmail req.Email = none →
      (AuthHandler.RequestPasswordReset s env db (some req)).mails =
        if token != "" then [(email, token)] else []) := by
  have hlen64 : ∀ bytes : Fin 32 → Fin 256,
      (hexEncodeToString (List.ofFn bytes)).length = 64 := by
    intro bytes
    rw [(hexEncode_spec _).1, List.length_ofFn]
  have hne : ∀ bytes : Fin 32 → Fin 256, hexEncodeToString (List.ofFn bytes) ≠ "" := by
    intro bytes h
    have := hlen64 bytes
    rw [h] at this
    exact absurd this (by decide)
  refine ⟨?_, ?_, ?_⟩
  · intro u hwf hu hmail hnf
    subst hmail
    have hget := getByEmail_of_mem hwf hu hnf
    rcases requestPasswordReset_ok hrun with ⟨⟨e, he⟩, _, _⟩ | ⟨v, bytes, hv, hr, htok, hdb⟩
    · rw [hget] at he
      cases he
    · rw [hget] at hv
      cases hv
      refine ⟨by rw [hdb], ⟨bytes, hr, htok⟩, ?_, ?_, ?_⟩
      · rw [htok]
        exact hlen64 bytes
      · rw [htok]
        exact (hexEncode_spec _).2
      · rw [htok]
        exact hne bytes
  · rcases requestPasswordReset_ok hrun with ⟨_, htok, hdb⟩ | ⟨v, bytes, hv, hr, htok, hdb⟩
    · constructor
      · intro h
        exact absurd htok h
      · rintro ⟨row, hrow⟩
        rw [hdb] at hrow
        have := congrArg List.length hrow
        simp at this
    · constructor
      · intro _
        exact ⟨_, by rw [hdb]⟩
      · intro _
        rw [htok]
        exact hne bytes
  · intro req hreq hv
    subst hreq
    simp only [AuthHandler.RequestPasswordReset, hv, hrun]

/-- C12 at the sample store: the token returned for alice's email has 64 characters and is
stored in the appended row with her id and an expiry one hour after instant 1000. -/
theorem C12_witness :
    Sample.db.WF ∧
    (Sample.service.RequestPasswordReset Sample.env Sample.db "a@x.com").2.password_reset_tokens
      = Sample.db.password_reset_tokens ++
        [{ ID := 4, UserID := 1,
           Token := "abacadaeafb0b1b2b3b4b5b6b7b8b9babbbcbdbebfc0c1c2c3c4c5c6c7c8c9ca",
           ExpiresAt := 1000 + 1 * Hour, Used := false, CreatedAt := 1000 }] ∧
    ("abacadaeafb0b1b2b3b4b5b6b7b8b9babbbcbdbebfc0c1c2c3c4c5c6c7c8c9ca" : String).length = 64 :=
  have h := (C12_reset_token_record Sample.service Sample.env Sample.db _ "a@x.com"
    "abacadaeafb0b1b2b3b4b5b6b7b8b9babbbcbdbebfc0c1c2c3c4c5c6c7c8c9ca" rfl).1 Sample.alice
    (by decide) (by decide) rfl rfl
  ⟨by decide, h.1, h.2.2.1⟩

/-! ## Issued-at and expiry -/

/-- C13, as stated, fails: `generateToken` reads the clock once for `exp` and once more for
`iat`; with the first reading in the last nanosecond of second 0 and the second reading at
the start of second 1, the token for alice carries `exp = 86400` and `iat = 1`, and 86400 is
not 1 + 86400. -/
theorem C13_counterexample :
    ∃ tok : jwt.TokenString,
      Sample.service.generateToken Sample.libs 999999999 1000000000 Sample.alice = .ok tok ∧
      tok.claims.lookup "exp" = some (jwt.ClaimValue.num 86400) ∧
      tok.claims.lookup "iat" = some (jwt.ClaimValue.num 1) ∧
      (86400 : Int) ≠ 1 + 86400 := by
  refine ⟨_, generateToken_eq _ _ _ _ _, ?_, ?_, by decide⟩
  · rw [lookup_exp]
    decide
  · simp only [issuedClaims, List.lookup]
    decide

/-- C13, amended: every token issued by `generateToken` carries `exp` = the whole seconds of
the first clock reading plus 86400 and `iat` = the whole seconds of the second, later
reading; hence `exp` is at most `iat + 86400`, and it is exactly `iat + 86400` when, and only
when, both readings fall in the same second (in particular when they are the same instant). -/
theorem C13_exp_iat_two_readings (s : AuthService) (lib : Libs) (user : User)
    (tExp tIat : Time) (hclock : tExp ≤ tIat) :
    ∃ tok : jwt.TokenString,
      s.generateToken lib tExp tIat user = .ok tok ∧
      tok.claims.lookup "exp" = some (jwt.ClaimValue.num ((Unix tExp + 86400 : Nat) : Int)) ∧
      tok.claims.lookup "iat" = some (jwt.ClaimValue.num ((Unix tIat : Nat) : Int)) ∧
      Unix tExp + 86400 ≤ Unix tIat + 86400 ∧
      (Unix tExp + 86400 = Unix tIat + 86400 ↔ Unix tExp = Unix tIat) ∧
      (tExp = tIat → Unix tExp + 86400 = Unix tIat + 86400) := by
  refine ⟨_, generateToken_eq s lib tExp tIat user, ?_, ?_, ?_, ?_, ?_⟩
  · rw [lookup_exp, unix_exp]
  · simp [issuedClaims, List.lookup]
  · exact Nat.add_le_add_right (unix_mono hclock) _
  · omega
  · intro h
    rw [h]

/-- C13 amended, for alice with both readings inside second 0: a token is issued and its
`exp` is its `iat` plus 86400. -/
theorem C13_witness :
    (1000 : Time) ≤ 1001 ∧
    ∃ tok : jwt.TokenString,
      Sample.service.generateToken Sample.libs 1000 1001 Sample.alice = .ok tok ∧
      Unix 1000 + 86400 = Unix 1001 + 86400 :=
  ⟨by decide,
    (C13_exp_iat_two_readings Sample.service Sample.libs Sample.alice 1000 1001
      (by decide)).elim (fun tok h => ⟨tok, h.1, h.2.2.2.2.1.mpr (by decide)⟩)⟩

/-! ## Password checks at registration and at login -/

/-- Trimming white space leaves nothing exactly when every character is white space. -/
theorem trimSpace_eq_empty_iff (s : String) :
    validator.stringsTrimSpace s = "" ↔ ∀ c ∈ s.toList, validator.unicodeIsSpace c = true := by
  unfold validator.stringsTrimSpace
  have hmk : ∀ l : List Char, String.mk l = "" ↔ l = [] := by
    intro l
    constructor
    · intro h
      exact congrArg String.data h
    · intro h
      rw [h]
  rw [hmk, List.reverse_eq_nil_iff, List.dropWhile_eq_nil_iff]
  constructor
  · intro h
    have hnil : s.toList.dropWhile validator.unicodeIsSpace = [] := by
      by_contra hne
      have hhead := List.head_dropWhile_not validator.unicodeIsSpace s.toList hne
      have hmem : (s.toList.dropWhile validator.unicodeIsSpace).head hne ∈
          (s.toList.dropWhile validator.unicodeIsSpace).reverse :=
        List.mem_reverse.mpr (List.head_mem hne)
      rw [h _ hmem] at hhead
      cases hhead
    exact List.dropWhile_eq_nil_iff.mp hnil
  · intro h x hx
    exact h x ((List.dropWhile_sublist _).subset (List.mem_reverse.mp hx))

/-- The required-field check passes exactly when some character is not white space. -/
theorem validateRequired_eq_none_iff (field value : String) :
    validator.ValidateRequired field value = none ↔
      ∃ c ∈ value.toList, validator.unicodeIsSpace c = false := by
  unfold validator.ValidateRequired
  by_cases h : validator.stringsTrimSpace value = ""
  · have hall := (trimSpace_eq_empty_iff value).mp h
    simp only [h, beq_self_eq_true, if_true]
    constructor
    · intro hc
      cases hc
    · rintro ⟨c, hc, hsp⟩
      rw [hall c hc] at hsp
      cases hsp
  · have hb : (validator.stringsTrimSpace value == "") = false := by simpa using h
    simp only [hb]
    constructor
    · intro _
      by_contra hno
      apply h
      rw [trimSpace_eq_empty_iff]
      intro c hc
      by_contra hsp
      exact hno ⟨c, hc, by simpa using hsp⟩
    · intro _
      rfl

/-- C14, as stated, fails: the password made of eight spaces is accepted by `ValidatePassword`
(it is not empty and has eight bytes) and refused by `ValidateRequired "password"` with
"password is required". -/
theorem C14_counterexample :
    validator.ValidatePassword "        " = none ∧
    validator.ValidateRequired "password" "        " = some "password is required" := by
  constructor <;> decide

/-- C14, amended: a password accepted by `ValidatePassword` (so non-empty and of at least eight
bytes) is accepted by `ValidateRequired "password"` exactly when at least one of its
characters is not white space. -/
theorem C14_accepted_iff_not_blank (p : String)
    (hp : validator.ValidatePassword p = none) :
    (validator.ValidateRequired "password" p = none ↔
      ∃ c ∈ p.toList, validator.unicodeIsSpace c = false) ∧
    p ≠ "" ∧ 8 ≤ p.utf8ByteSize := by
  refine ⟨validateRequired_eq_none_iff "password" p, ?_, ?_⟩
  · intro h
    rw [h] at hp
    exact absurd hp (by decide)
  · unfold validator.ValidatePassword at hp
    split at hp
    · cases hp
    · split at hp
      · cases hp
      · omega

/-- C14 amended, for "password1": accepted at registration, hence at login. -/
theorem C14_witness :
    validator.ValidatePassword "password1" = none ∧
    validator.ValidateRequired "password" "password1" = none :=
  ⟨by decide,
    (C14_accepted_iff_not_blank "password1" (by decide)).1.mpr ⟨'p', by decide, by decide⟩⟩

/-! ## The pre-check of registration -/

/-- The text of a wrapped hashing failure is never the text of the duplicate-user error. -/
theorem hashErr_ne_duplicate (x : String) :
    "failed to hash password: " ++ x ≠ "user with this email already exists" := by
  intro h
  have h2 := congrArg (fun s => s.data.head?) h
  simp only [String.data_append] at h2
  simp at h2

/-- What `Register` does once the lookup has returned an error: it hashes the password and,
when that succeeds, runs the insert, whose failure it wraps and whose success it reports. -/
theorem register_after_failed_lookup (s : AuthService) (lib : Libs) (env : Env) (db : DB)
    (req : RegisterRequest) (e : String)
    (hg : UserRepository.GetByEmail db env req.Email = .error e) :
    (∀ h, lib.bcrypt.GenerateFromPassword req.Password env.salt = .error h →
      s.Register lib env db req = (.error ("failed to hash password: " ++ h), db)) ∧
    (∀ hash, lib.bcrypt.GenerateFromPassword req.Password env.salt = .ok hash →
      (∀ e1 db1,
        UserRepository.Create db env
          { ID := 0, Email := req.Email, Username := req.Username,
            PasswordHash := hash, FirstName := req.FirstName,
            LastName := req.LastName, Bio := none, AvatarURL := none,
            IsVerified := false, IsActive := true, CreatedAt := 0, UpdatedAt := 0 } =
          (.error e1, db1) →
        s.Register lib env db req = (.error ("failed to create user: " ++ e1), db1)) ∧
      (∀ user db1,
        UserRepository.Create db env
          { ID := 0, Email := req.Email, Username := req.Username,
            PasswordHash := hash, FirstName := req.FirstName,
            LastName := req.LastName, Bio := none, AvatarURL := none,
            IsVerified := false, IsActive := true, CreatedAt := 0, UpdatedAt := 0 } =
          (.ok user, db1) →
        ∃ token, (s.Register lib env db req).1 = .ok { Token := token, User := user })) := by
  have hnone : (UserRepository.GetByEmail db env req.Email).toOption = none := by
    rw [hg]
    rfl
  refine ⟨fun h hh => ?_, fun hash hh => ⟨fun e1 db1 hc => ?_, fun user db1 hc => ?_⟩⟩
  · simp [AuthService.Register, hnone, hh]
  · simp [AuthService.Register, hnone, hh, hc]
  · simp only [AuthService.Register, hnone, hh, hc, generateToken_eq]
    exact ⟨_, rfl⟩

/-- C15: `Register` returns the error "user with this email already exists" if and only if
`GetByEmail` returns a user.  When `GetByEmail` returns an error, whichever it is, `Register`
goes on: a hashing failure is returned as "failed to hash password: ..." with the store
untouched; otherwise the insert is run with the new user record, its failure is returned as
"failed to create user: ..." together with the store it left, and its success makes
`Register` succeed with the inserted user. -/
theorem C15_duplicate_iff_lookup_returns_user (s : AuthService) (lib : Libs) (env : Env)
    (db : DB) (req : RegisterRequest) :
    ((s.Register lib env db req).1 = .error "user with this email already exists" ↔
      ∃ v, UserRepository.GetByEmail db env req.Email = .ok v) ∧
    (∀ e, UserRepository.GetByEmail db env req.Email = .error e →
      (∀ h, lib.bcrypt.GenerateFromPassword req.Password env.salt = .error h →
        s.Register lib env db req = (.error ("failed to hash password: " ++ h), db)) ∧
      (∀ hash, lib.bcrypt.GenerateFromPassword req.Password env.salt = .ok hash →
        (∀ e1 db1,
          UserRepository.Create db env
            { ID := 0, Email := req.Email, Username := req.Username,
              PasswordHash := hash, FirstName := req.FirstName,
              LastName := req.LastName, Bio := none, AvatarURL := none,
              IsVerified := false, IsActive := true, CreatedAt := 0, UpdatedAt := 0 } =
            (.error e1, db1) →
          s.Register lib env db req = (.error ("failed to create user: " ++ e1), db1)) ∧
        (∀ user db1,
          UserRepository.Create db env
            { ID := 0, Email := req.Email, Username := req.Username,
              PasswordHash := hash, FirstName := req.FirstName,
              LastName := req.LastName, Bio := none, AvatarURL := none,
              IsVerified := false, IsActive := true, CreatedAt := 0, UpdatedAt := 0 } =
            (.ok user, db1) →
          ∃ token,
            (s.Register lib env db req).1 = .ok { Token := token, User := user }))) := by
  refine ⟨⟨fun hdup => ?_, fun ⟨v, hv⟩ => by rw [register_duplicate s lib hv]⟩,
    fun e hg => register_after_failed_lookup s lib env db req e hg⟩
  cases hg : UserRepository.GetByEmail db env req.Email with
  | ok v => exact ⟨v, rfl⟩
  | error e =>
    exfalso
    obtain ⟨hfail, hok⟩ := register_after_failed_lookup s lib env db req e hg
    cases hh : lib.bcrypt.GenerateFromPassword req.Password env.salt with
    | error h =>
      rw [hfail h hh] at hdup
      exact hashErr_ne_duplicate _ (Except.error.inj hdup)
    | ok hash =>
      rcases hc : UserRepository.Create db env
          { ID := 0, Email := req.Email, Username := req.Username,
            PasswordHash := hash, FirstName := req.FirstName,
            LastName := req.LastName, Bio := none, AvatarURL := none,
            IsVerified := false, IsActive := true, CreatedAt := 0, UpdatedAt := 0 }
        with ⟨res, db1⟩
      cases res with
      | error e1 =>
        rw [(hok hash hh).1 e1 db1 hc] at hdup
        exact createErr_ne_duplicate _ (Except.error.inj hdup)
      | ok user =>
        obtain ⟨token, ht⟩ := (hok hash hh).2 user db1 hc
        rw [ht] at hdup
        cases hdup

/-- C15 at the sample store: with a working lookup, alice's email is reported as a duplicate;
with a failing lookup the same request reaches the insert, which the unique index rejects. -/
theorem C15_witness :
    (Sample.service.Register Sample.libs Sample.env Sample.db
      { Sample.registerCarol with Email := "a@x.com" }).1 =
      .error "user with this email already exists" ∧
    Sample.service.Register Sample.libs Sample.envLookupFails Sample.db
        { Sample.registerCarol with Email := "a@x.com" } =
      (.error ("failed to create user: " ++
          ("failed to create user: " ++ "rejected by the server")),
        { Sample.db with users_id_seq := 3 + 1 }) :=
  ⟨(C15_duplicate_iff_lookup_returns_user Sample.service Sample.libs Sample.env Sample.db
      { Sample.registerCarol with Email := "a@x.com" }).1.mpr ⟨Sample.alice, rfl⟩,
    (((C15_duplicate_iff_lookup_returns_user Sample.service Sample.libs Sample.envLookupFails
      Sample.db { Sample.registerCarol with Email := "a@x.com" }).2 _ rfl).2
        "$2a$10$ss$password3" rfl).1 _ _ rfl⟩

end Auth
